import Mathlib

/-!
Verification development for the Chronicle market-data engine.

This file gives a shallow embedding, in Lean 4, of the parts of the
Chronicle code base (a Node.js service) that the specification's claims
are about:

* `lib/utils.js` — timeframe parsing and cushion constants;
* `lib/candle-processor.js` — session-start computation (with its
  per-UTC-day memoization), session-based bucket alignment, and the
  1-minute-to-higher-timeframe aggregator `aggregateCandles`;
* `lib/db.js` — the `CANDLES` cache (`batchInsertCandles`,
  `getCached1mCandles`);
* `lib/data-fetcher.js` — the "Invalid start time" retry loops of
  `fetchLive1mCandles` and `startLiveTradesSubscription`;
* `lib/handlers/settings-handlers.js` (data handlers) — the acquisition
  cushion decisions of `handleGetData`, the per-client live-candle updater
  `processTradeForClient`, and the trade queue used while a timeframe
  change is in progress;
* `lib/handlers/cache-handlers.js` — `handleClearCache`;
* `lib/handlers/replay-handlers.js` — the replay tick.

Conventions used throughout the embedding:

* JavaScript numbers holding epoch-millisecond timestamps, sizes and
  volumes are modelled as `Int`; prices are modelled as `Rat`.
  `Math.floor(a / b) * b` on such values is modelled with `Int.fdiv`.
* Nullable JS fields are modelled with `Option`.
* JS `Map`s and plain objects used as dictionaries are modelled as
  association lists (`List (key × value)`), which preserves the JS
  insertion-order iteration semantics; `Map.set`/property assignment is
  `aset` (update in place, else append) and `Map.get`/property access is
  `alookup`.
* Code that `throw`s where the claims need totality returns `Option`
  (`none` where the source throws).
* The server process is assumed to run with a UTC local time zone, so
  that `new Date("M/D/YYYY 18:00:00")` parses as UTC; the
  `America/New_York` zone data consulted by `toLocaleDateString` is
  modelled by the post-2007 statutory US daylight-saving rules.
* Observable side effects needed by the claims (messages written to the
  client, candles handed to the cache writer) are recorded in ghost
  lists threaded through the state.
-/

namespace Chronicle

/-- Milliseconds per minute (the `60000` literals of the source). -/
def msPerMin : Int := 60000

/-- Milliseconds per hour. -/
def msPerHour : Int := 3600000

/-- Milliseconds per day (`24 * 60 * 60 * 1000`). -/
def msPerDay : Int := 86400000

/-- `EARLY_CANDLE_CUSHION_MINUTES` from `lib/utils.js` (3 days in minutes). -/
def EARLY_CANDLE_CUSHION_MINUTES : Int := 4320

/-- `LATE_CANDLE_CUSHION_MINUTES` from `lib/utils.js` (3 hours in minutes). -/
def LATE_CANDLE_CUSHION_MINUTES : Int := 180

/-- `Number.MAX_SAFE_INTEGER`, used as the sentinel for "no future candle"
in the replay tick. -/
def maxSafeInteger : Int := 9007199254740991

/-- Models `parseTimeframeMs` from `lib/utils.js`: a timeframe string is
matched against `^(\d+)([mhd])$`; on a match the numeric part times the
unit's milliseconds is returned.  The source throws on a non-matching
string; this is modelled as `none`. -/
def parseTimeframeMs? (timeframe : String) : Option Int :=
  let cs := timeframe.toList
  let digits := cs.takeWhile Char.isDigit
  let rest := cs.dropWhile Char.isDigit
  match digits, rest with
  | [], _ => none
  | _ :: _, [u] =>
    let value : Int := Int.ofNat (digits.foldl (fun n c => 10 * n + (c.toNat - 48)) 0)
    if u = 'm' then some (value * msPerMin)
    else if u = 'h' then some (value * msPerHour)
    else if u = 'd' then some (value * msPerDay)
    else none
  | _ :: _, _ => none

/-- The interval test of `needsSessionAlignment` from
`lib/candle-processor.js`: session alignment is used for intervals
strictly above one hour and at most one day. -/
def needsSessionAlignmentI (intervalMs : Int) : Bool :=
  decide (msPerHour < intervalMs) && decide (intervalMs ≤ msPerDay)

/-- Models `needsSessionAlignment` from `lib/candle-processor.js`
(`none` where the source would throw on an unparsable timeframe). -/
def needsSessionAlignment (timeframe : String) : Option Bool :=
  (parseTimeframeMs? timeframe).map needsSessionAlignmentI

/-- Association-list lookup, modelling JS `Map.get` / object property
access (`none` for a missing key). -/
def alookup {α β : Type} [DecidableEq α] : List (α × β) → α → Option β
  | [], _ => none
  | (k', v) :: rest, k => if k' = k then some v else alookup rest k

/-- Association-list update, modelling JS `Map.set` / object property
assignment: an existing key is updated in place (iteration order kept),
a new key is appended. -/
def aset {α β : Type} [DecidableEq α] : List (α × β) → α → β → List (α × β)
  | [], k, v => [(k, v)]
  | (k', v') :: rest, k, v =>
    if k' = k then (k, v) :: rest else (k', v') :: aset rest k v

/-- An OHLCV bar with all price fields present, as produced by the
historical fetcher, the cache reader and the aggregator. -/
structure Candle where
  timestamp : Int
  open_ : Rat
  high : Rat
  low : Rat
  close : Rat
  volume : Int
  instrument : String
  timeframe : String
  source : String
  isClosed : Bool
deriving DecidableEq, Repr

/-- A tick trade as delivered by the live trades subscription. -/
structure Trade where
  timestamp : Int
  price : Rat
  size : Int
  side : String
  instrument : String
deriving DecidableEq, Repr

/-- An open (live-updated) candle: OHLC fields start out `null` and the
candle is mutated by arriving trades.  `firstUpdate` is only ever set on
1-minute candles; on higher-timeframe candles the source object simply
lacks the property, modelled here by the field being `false`. -/
structure LiveCandle where
  timestamp : Int
  open_ : Option Rat
  high : Option Rat
  low : Option Rat
  close : Option Rat
  volume : Int
  instrument : String
  timeframe : String
  source : String
  isClosed : Bool
  firstUpdate : Bool
deriving DecidableEq, Repr

/-- A row of the `CANDLES` table (`lib/db.js`).  The OHLC columns are
nullable in the schema, hence `Option`. -/
structure DbCandle where
  instrument : String
  timeframe : String
  timestamp : Int
  open_ : Option Rat
  high : Option Rat
  low : Option Rat
  close : Option Rat
  volume : Int
deriving DecidableEq, Repr

/-- Models the JS idiom `x || d` applied to a nullable number `x`:
`null` and `0` are falsy, so the default is taken for both. -/
def jsOr (x : Option Rat) (d : Rat) : Rat :=
  match x with
  | none => d
  | some v => if v = 0 then d else v

/-! ### Calendar arithmetic and the America/New_York zone

`lib/candle-processor.js` relies on the JavaScript `Date` object for
Gregorian-calendar and `America/New_York` time-zone computations.  The
calendar arithmetic is embedded with the standard epoch-day/civil-date
conversion algorithms; the zone's UTC offset follows the post-2007 US
statutory daylight-saving rules (DST from 02:00 local on the second
Sunday of March to 02:00 local on the first Sunday of November, offset
UTC−4 during DST and UTC−5 otherwise), which is what the IANA zone data
consulted by `toLocaleDateString` prescribes for the years in play. -/

/-- Convert a count of days since 1970-01-01 to a proleptic Gregorian
civil date `(year, month, day)`. -/
def civilFromDays (z0 : Int) : Int × Int × Int :=
  let z := z0 + 719468
  let era := z.fdiv 146097
  let doe := z - era * 146097
  let yoe := (doe - doe / 1460 + doe / 36524 - doe / 146096) / 365
  let y := yoe + era * 400
  let doy := doe - (365 * yoe + yoe / 4 - yoe / 100)
  let mp := (5 * doy + 2) / 153
  let d := doy - (153 * mp + 2) / 5 + 1
  let m := mp + (if mp < 10 then 3 else -9)
  (y + (if m ≤ 2 then 1 else 0), m, d)

/-- Convert a proleptic Gregorian civil date to days since 1970-01-01. -/
def daysFromCivil (y0 m d : Int) : Int :=
  let y := y0 - (if m ≤ 2 then 1 else 0)
  let era := y.fdiv 400
  let yoe := y - era * 400
  let doy := (153 * (m + (if 2 < m then -3 else 9)) + 2) / 5 + d - 1
  let doe := yoe * 365 + yoe / 4 - yoe / 100 + doy
  era * 146097 + doe - 719468

/-- Day of the week of an epoch day (0 = Sunday … 6 = Saturday). -/
def weekday (z : Int) : Int := (z + 4) % 7

/-- Epoch day of the second Sunday of March of year `y` (the day US
daylight-saving time starts). -/
def dstStartDay (y : Int) : Int :=
  let m1 := daysFromCivil y 3 1
  m1 + (7 - weekday m1) % 7 + 7

/-- Epoch day of the first Sunday of November of year `y` (the day US
daylight-saving time ends). -/
def dstEndDay (y : Int) : Int :=
  let n1 := daysFromCivil y 11 1
  n1 + (7 - weekday n1) % 7

/-- UTC instant (epoch ms) at which DST starts in year `y`
(02:00 EST = 07:00 UTC on the second Sunday of March). -/
def dstStartMs (y : Int) : Int := dstStartDay y * msPerDay + 7 * msPerHour

/-- UTC instant (epoch ms) at which DST ends in year `y`
(02:00 EDT = 06:00 UTC on the first Sunday of November). -/
def dstEndMs (y : Int) : Int := dstEndDay y * msPerDay + 6 * msPerHour

/-- Whether US daylight-saving time is in effect throughout the civil
day `d` away from the 02:00 transition hour (in particular at 12:00 and
at 18:00 local time, the only local times the source asks about). -/
def dstFlagDay (d : Int) : Bool :=
  let y := (civilFromDays d).1
  decide (dstStartDay y ≤ d) && decide (d < dstEndDay y)

/-- UTC offset of America/New_York, in ms (negative), at UTC instant `t`. -/
def etOffsetMs (t : Int) : Int :=
  let y := (civilFromDays (t.fdiv msPerDay)).1
  if dstStartMs y ≤ t ∧ t < dstEndMs y then -4 * msPerHour else -5 * msPerHour

/-- The America/New_York civil day (as an epoch-day count) containing the
UTC instant `t`; models `toLocaleDateString("en-US", {timeZone:
"America/New_York", ...})` up to the day/civil-date conversion. -/
def etCivilDays (t : Int) : Int := (t + etOffsetMs t).fdiv msPerDay

/-- Models the body of `getSessionStartUTC` (`lib/candle-processor.js`
lines 17–38), i.e. the computation performed on a cache miss, for a
server process running in UTC:
the timestamp's Eastern civil date is extracted (`easternTimeString`),
`new Date("M/D/YYYY 18:00:00")` parses that date's 18:00 as UTC
(`sessionDate`), `new Date(y, m-1, d, 12)` is that date's noon as UTC
(`tempUTC`), rendering `tempUTC` in Eastern time and re-parsing the
result as UTC yields `tempETDate = tempUTC + etOffsetMs tempUTC`, and
the session start is `sessionDate + (tempUTC − tempETDate)`. -/
def getSessionStartUTCBody (utcTimestamp : Int) : Int :=
  match civilFromDays (etCivilDays utcTimestamp) with
  | (year, month, day) =>
    let sessionDate := daysFromCivil year month day * msPerDay + 18 * msPerHour
    let tempUTC := daysFromCivil year month day * msPerDay + 12 * msPerHour
    let tempETDate := tempUTC + etOffsetMs tempUTC
    let offsetMs := tempUTC - tempETDate
    sessionDate + offsetMs

/-- Models `getSessionStartUTC` from `lib/candle-processor.js` including
its `sessionBoundaryCache` memoization: the cache is keyed by the UTC
day (`Math.floor(utcTimestamp / 86400000)`); on a hit the cached value
is returned unchanged, on a miss the body is computed and cached. -/
def getSessionStartUTC (cache : List (Int × Int)) (utcTimestamp : Int) :
    Int × List (Int × Int) :=
  let dayKey := utcTimestamp.fdiv msPerDay
  match alookup cache dayKey with
  | some v => (v, cache)
  | none =>
    let sessionStartUTC := getSessionStartUTCBody utcTimestamp
    (sessionStartUTC, aset cache dayKey sessionStartUTC)

/-- Models `getSessionBasedAlignment` from `lib/candle-processor.js`,
threading the session-boundary cache: take today's (the timestamp's
Eastern date's) 18:00 ET session start, fall back to "yesterday's" by
subtracting exactly 24 hours when the timestamp is before it, and align
to `intervalMs`-multiples since that base. -/
def getSessionBasedAlignment (cache : List (Int × Int)) (timestamp intervalMs : Int) :
    Int × List (Int × Int) :=
  let (sessionStartToday, cache') := getSessionStartUTC cache timestamp
  let baseSessionStart :=
    if timestamp < sessionStartToday then sessionStartToday - msPerDay
    else sessionStartToday
  let intervalsSinceBase := (timestamp - baseSessionStart).fdiv intervalMs
  (baseSessionStart + intervalsSinceBase * intervalMs, cache')

/-- UTC bucket alignment, `Math.floor(t / intervalMs) * intervalMs`. -/
def utcAlign (intervalMs t : Int) : Int := t.fdiv intervalMs * intervalMs

/-! ### The aggregator (`aggregateCandles`, `lib/candle-processor.js`) -/

/-- The alignment step of the aggregation loop (`lib/candle-processor.js`
lines 99–104): session-based alignment (threading the session-boundary
cache) when `useSession`, UTC alignment otherwise. -/
def alignStep (useSession : Bool) (intervalMs : Int) (cache : List (Int × Int))
    (ts : Int) : Int × List (Int × Int) :=
  if useSession then getSessionBasedAlignment cache ts intervalMs
  else (utcAlign intervalMs ts, cache)

/-- The in-progress output candle of the aggregation loop, together with
`currentCandleTimestamps` (the 1-minute timestamps folded into it). -/
structure AggCur where
  cur : Candle
  tses : List Int
deriving DecidableEq, Repr

/-- Opening a new output candle from a 1-minute candle
(`lib/candle-processor.js` lines 114–125). -/
def aggInit (instrument timeframe : String) (baseTime : Int) (c : Candle) : AggCur :=
  { cur := { timestamp := baseTime, open_ := c.open_, high := c.high, low := c.low,
             close := c.close, volume := c.volume, instrument := instrument,
             timeframe := timeframe, source := "A", isClosed := false },
    tses := [c.timestamp] }

/-- Folding a same-bucket 1-minute candle into the open output candle
(`lib/candle-processor.js` lines 127–131). -/
def aggUpdate (st : AggCur) (c : Candle) : AggCur :=
  { cur := { st.cur with
               high := max st.cur.high c.high,
               low := min st.cur.low c.low,
               close := c.close,
               volume := st.cur.volume + c.volume },
    tses := st.tses ++ [c.timestamp] }

/-- Finalizing an output candle (`lib/candle-processor.js` lines
107–112 and 134–139): it is closed iff a 1-minute candle at or past the
bucket's end exists in the input (`maxTs ≥ timestamp + intervalMs`) or
the bucket's final 1-minute slot was folded into it. -/
def aggClose (intervalMs maxTs : Int) (st : AggCur) : Candle :=
  let lastPossibleTs := st.cur.timestamp + intervalMs - msPerMin
  let hasLastPossible := st.tses.contains lastPossibleTs
  let hasLaterData := decide (st.cur.timestamp + intervalMs ≤ maxTs)
  { st.cur with isClosed := hasLaterData || hasLastPossible }

/-- `Math.max(...candles1m.map(c => c.timestamp))`; the `[]` case (where
JS yields `-Infinity`) is never consulted, since the aggregation loop
then makes no comparison against it. -/
def maxTimestamp : List Candle → Int
  | [] => 0
  | c :: rest => rest.foldl (fun m x => max m x.timestamp) c.timestamp

/-- The `for (const candle1m of candles1m)` loop of `aggregateCandles`
(`lib/candle-processor.js` lines 98–140), including the final flush:
open a new output candle whenever the current 1-minute candle's aligned
bucket differs from the open candle's timestamp (emitting the finalized
previous one), otherwise fold the candle in. -/
def aggLoop (instrument timeframe : String) (intervalMs : Int) (useSession : Bool)
    (maxTs : Int) : List Candle → Option AggCur → List (Int × Int) → List Candle
  | [], none, _ => []
  | [], some st, _ => [aggClose intervalMs maxTs st]
  | c :: rest, none, cache =>
    let (baseTime, cache') := alignStep useSession intervalMs cache c.timestamp
    aggLoop instrument timeframe intervalMs useSession maxTs rest
      (some (aggInit instrument timeframe baseTime c)) cache'
  | c :: rest, some st, cache =>
    let (baseTime, cache') := alignStep useSession intervalMs cache c.timestamp
    if baseTime = st.cur.timestamp then
      aggLoop instrument timeframe intervalMs useSession maxTs rest
        (some (aggUpdate st c)) cache'
    else
      aggClose intervalMs maxTs st ::
        aggLoop instrument timeframe intervalMs useSession maxTs rest
          (some (aggInit instrument timeframe baseTime c)) cache'

/-- The ascending-timestamp ordering used by the numeric sort
comparator `(a, b) => a.timestamp - b.timestamp`. -/
def tsLE (a b : Candle) : Prop := a.timestamp ≤ b.timestamp

instance : DecidableRel tsLE := fun a b => Int.decLe a.timestamp b.timestamp

/-- Models `aggregateCandles` from `lib/candle-processor.js`.  For the
`"1m"` timeframe the input is just range-filtered.  Otherwise the input
is sorted by timestamp (JS `Array.sort` with a numeric comparator is
stable, modelled by the stable `List.insertionSort`), folded into
output buckets, and the result is range-filtered.  The session-boundary
cache starts empty (a fresh process); `none` models the source throwing
on an unparsable timeframe. -/
def aggregateCandles (instrument timeframe : String) (start endv : Int)
    (candles1m : List Candle) : Option (List Candle) :=
  if timeframe = "1m" then
    some (candles1m.filter (fun c => decide (start ≤ c.timestamp) && decide (c.timestamp ≤ endv)))
  else
    match parseTimeframeMs? timeframe with
    | none => none
    | some intervalMs =>
      let useSessionAlignment := needsSessionAlignmentI intervalMs
      let maxTs := maxTimestamp candles1m
      let sorted := candles1m.insertionSort tsLE
      let result := aggLoop instrument timeframe intervalMs useSessionAlignment maxTs
        sorted none []
      some (result.filter (fun c => decide (start ≤ c.timestamp) && decide (c.timestamp ≤ endv)))

/-! ### Acquisition cushion decisions (`handleGetData`,
`lib/handlers/settings-handlers.js` lines 234–296) -/

/-- The `end_time` request field of `get_data`: absent, the literal
string `"current"`, or an explicit time (already converted to epoch ms
by `new Date(end_time).getTime()`). -/
inductive EndTimeParam where
  | absent
  | current
  | explicit (ms : Int)
deriving DecidableEq, Repr

/-- `endMs` as computed by `handleGetData` (line 150): `now` when
`end_time` is absent or `"current"`, the explicit instant otherwise. -/
def endMsOf (now : Int) : EndTimeParam → Int
  | .absent => now
  | .current => now
  | .explicit e => e

/-- Whether the early and the late historical refetches are issued. -/
structure AcqDecision where
  earlyFetch : Bool
  lateFetch : Bool
deriving DecidableEq, Repr

/-- Models the refetch decisions of `handleGetData`'s cached-data branch
(`lib/handlers/settings-handlers.js` lines 234–296), taken when the
cache returned at least one 1-minute candle for the requested range:
an early historical fetch is attempted iff `startMs < earliestCached`
and the gap exceeds the early cushion; a late historical fetch is
attempted iff `endMs > latestCached` and either `end_time` was explicit
(the `else` branch at line 279 always fetches) or the gap exceeds the
late cushion. -/
def acquisitionPlan (startMs now earliestCached latestCachedForSymbol : Int)
    (end_time : EndTimeParam) : AcqDecision :=
  let endMs := endMsOf now end_time
  let earlyFetch :=
    if startMs < earliestCached then
      let cushionMs := EARLY_CANDLE_CUSHION_MINUTES * msPerMin
      if earliestCached - startMs ≤ cushionMs then false else true
    else false
  let lateFetch :=
    if latestCachedForSymbol < endMs then
      match end_time with
      | .absent | .current =>
        let cushionMs := LATE_CANDLE_CUSHION_MINUTES * msPerMin
        if endMs - latestCachedForSymbol ≤ cushionMs then false else true
      | .explicit _ => true
    else false
  { earlyFetch := earlyFetch, lateFetch := lateFetch }

/-! ### The bar cache (`lib/db.js`) -/

/-- The null-bar test of `batchInsertCandles` (`lib/db.js` lines
120–126): a candle is kept iff its volume is positive and no OHLC field
is null. -/
def isValidCandle (c : LiveCandle) : Bool :=
  decide (0 < c.volume) && c.open_.isSome && c.high.isSome && c.low.isSome
    && c.close.isSome

/-- The columns written by the prepared `INSERT OR REPLACE` statement
(`lib/db.js` lines 150–156); note that instrument and timeframe come
from the candle object itself, not from the function's parameters. -/
def rowOfCandle (c : LiveCandle) : DbCandle :=
  { instrument := c.instrument, timeframe := c.timeframe, timestamp := c.timestamp,
    open_ := c.open_, high := c.high, low := c.low, close := c.close,
    volume := c.volume }

/-- `INSERT OR REPLACE` upsert semantics on the `CANDLES` table: any row
with the same primary key `(instrument, timeframe, timestamp)` is
replaced. -/
def upsertRow (table : List DbCandle) (r : DbCandle) : List DbCandle :=
  table.filter (fun q =>
    !(decide (q.instrument = r.instrument) && decide (q.timeframe = r.timeframe)
      && decide (q.timestamp = r.timestamp))) ++ [r]

/-- Models `batchInsertCandles` from `lib/db.js`: null candles are
filtered out before the transaction begins, the remaining candles are
upserted within one transaction. -/
def batchInsertCandles (table : List DbCandle) (candles : List LiveCandle) :
    List DbCandle :=
  let validCandles := candles.filter isValidCandle
  validCandles.foldl (fun t c => upsertRow t (rowOfCandle c)) table

/-- Models `getCached1mCandles` from `lib/db.js`: rows for the symbol
with timeframe `"1m"` and timestamp in `[startMs, endMs]`, ordered by
timestamp ascending, mapped back to candle objects with `source = 'C'`
and `isClosed = true`. -/
def getCached1mCandles (table : List DbCandle) (symbol : String)
    (startMs endMs : Int) : List LiveCandle :=
  ((table.filter (fun r =>
      decide (r.instrument = symbol) && decide (r.timeframe = "1m")
        && decide (startMs ≤ r.timestamp) && decide (r.timestamp ≤ endMs))).insertionSort
    (fun a b => a.timestamp ≤ b.timestamp)).map (fun r =>
      { timestamp := r.timestamp, open_ := r.open_, high := r.high, low := r.low,
        close := r.close, volume := r.volume, instrument := r.instrument,
        timeframe := r.timeframe, source := "C", isClosed := true,
        firstUpdate := false })

/-! ### `handleClearCache` (`lib/handlers/cache-handlers.js` lines 4–42) -/

/-- A request field of the `clear_cache` action: absent from the request,
a JSON string, or a JSON number. -/
inductive ReqParam where
  | absent
  | str (s : String)
  | num (n : Int)
deriving DecidableEq, Repr

/-- The destructuring defaults of line 5: an absent field becomes
`'all'`. -/
def reqParamOrAll : ReqParam → ReqParam
  | .absent => .str "all"
  | p => p

/-- One SQL condition pushed by `handleClearCache`, with its bound
parameter. -/
inductive CacheCond where
  | instrumentEq (v : ReqParam)
  | timeframeEq (v : ReqParam)
  | tsGe (v : ReqParam)
  | tsLe (v : ReqParam)
deriving DecidableEq, Repr

/-- The SQL text of a condition (lines 11, 15, 20, 24). -/
def cacheCondSql : CacheCond → String
  | .instrumentEq _ => "instrument = ?"
  | .timeframeEq _ => "timeframe = ?"
  | .tsGe _ => "timestamp >= ?"
  | .tsLe _ => "timestamp <= ?"

/-- Models the query construction of `handleClearCache` (lines 5–31):
each field distinct from `'all'` contributes a condition (the
time-range conditions sit inside the redundant outer test of line 18,
mirrored here), and the `WHERE` clause is appended only when at least
one condition was pushed. -/
def buildClearCacheQuery (instrument timeframe start_time end_time : ReqParam) :
    String × List CacheCond :=
  let instrument := reqParamOrAll instrument
  let timeframe := reqParamOrAll timeframe
  let start_time := reqParamOrAll start_time
  let end_time := reqParamOrAll end_time
  let conditions : List CacheCond :=
    (if instrument ≠ .str "all" then [.instrumentEq instrument] else []) ++
    (if timeframe ≠ .str "all" then [.timeframeEq timeframe] else []) ++
    (if start_time ≠ .str "all" ∨ end_time ≠ .str "all" then
      (if start_time ≠ .str "all" then [.tsGe start_time] else []) ++
      (if end_time ≠ .str "all" then [.tsLe end_time] else [])
    else [])
  let query :=
    if conditions ≠ [] then
      "DELETE FROM CANDLES" ++ " WHERE " ++
        String.intercalate " AND " (conditions.map cacheCondSql)
    else "DELETE FROM CANDLES"
  (query, conditions)

/-- Semantics of running the built `DELETE` statement against the
`CANDLES` table: a row is deleted iff it satisfies every condition.
The evaluation of a single bound condition against a row is abstracted
by `holds` (SQLite's comparison semantics); with an empty condition
list every row is deleted regardless of `holds`. -/
def runClearCache (table : List DbCandle) (conds : List CacheCond)
    (holds : DbCandle → CacheCond → Bool) : List DbCandle :=
  table.filter (fun r => !(conds.all (holds r)))

/-! ### "Invalid start time" retry loops (`lib/data-fetcher.js`) -/

/-- The outcome of one connection attempt of the live API, as far as the
retry logic is concerned: either the vendor rejects the requested start
with an rtype-21 `"Invalid start time. Must be X or later"` message
whose `X` the source's regular expression extracts (`invalidStart`
carries the parsed replacement start), or the subscription proceeds and
the call eventually resolves with its collected payload. -/
inductive LiveAttemptOutcome where
  | invalidStart (suggestedStartMs : Int)
  | ok (candles : List Candle)

/-- Models the retry structure of `fetchLive1mCandles` (`lib/data-fetcher.js`
lines 224–331): at entry, more than 3 prior retries fail the call
(`retryCount > 3`, line 229) without opening a connection; otherwise a
connection is opened (recorded in the returned attempt list as the
start used), and an "Invalid start time" rejection closes the channel
and recurses with the parsed replacement start and `retryCount + 1`
(lines 303–331). -/
def fetchLive1mCandles (vendor : Int → LiveAttemptOutcome) (startMs endMs : Int)
    (retryCount : Nat) : List Int × Except String (List Candle) :=
  if 3 < retryCount then
    ([], .error "Exceeded maximum retry attempts for fetching live candles")
  else
    match vendor startMs with
    | .invalidStart newStartMs =>
      let r := fetchLive1mCandles vendor newStartMs endMs (retryCount + 1)
      (startMs :: r.1, r.2)
    | .ok candles => ([startMs], .ok candles)
termination_by 4 - retryCount

/-- The state of `startLiveTradesSubscription`'s promise as observable
to its caller: resolved, rejected with a message, or never settled. -/
inductive SubPromise where
  | resolved
  | rejected (msg : String)
  | pending
deriving DecidableEq, Repr

/-- Models `startLiveTradesSubscription` (`lib/data-fetcher.js` lines
73–80 and 147–178), whose retry apparatus mirrors
`fetchLive1mCandles`'s but is broken: on an rtype-21 invalid-start
message the handler sets `isHandlingError = true` (line 154) and then
reads `inactivityTimer` (line 156) — an identifier declared only inside
`fetchLive1mCandles` (line 250), not in this function — which throws a
`ReferenceError` that the message-parse `catch` (line 200) swallows.
`liveClient.destroy()` (line 169) and the recursive retry (line 173)
are therefore never reached: the channel is not closed, exactly one
connection attempt is made, all further messages are ignored
(`isHandlingError` stays set, so neither the `error` nor the `close`
handler settles the promise), and the returned promise is forever
pending. -/
def startLiveTradesSubscription (vendor : Int → LiveAttemptOutcome) (startTs : Int)
    (retryCount : Nat) : List Int × SubPromise :=
  if 3 < retryCount then
    ([], .rejected "Exceeded maximum retry attempts for live trades subscription")
  else
    match vendor startTs with
    | .invalidStart _ => ([startTs], .pending)
    | .ok _ => ([startTs], .resolved)

/-! ### Per-client session state and the live-candle updater
(`lib/handlers/settings-handlers.js`, data handlers) -/

/-- The per-client state carried on the connection object `ws` by the
data handlers, restricted to the fields the claims are about, plus
ghost logs of the observable effects:

* `applied` records, in order, every trade that passed the queue gate
  and reached the live-candle updater body (source line 416);
* `emitted` records, in order, every candle passed to `ws.outputFunc`;
* `cached1m` records every 1-minute candle handed to
  `batchInsertCandles` on a roll-over. -/
structure ClientState where
  isLiveActive : Bool
  isProcessingTimeframeChange : Bool
  tradeQueue : List Trade
  activeSubscriptions : List (String × List String)
  next1mStarts : List (String × Int)
  open1mCandles : List (String × LiveCandle)
  openCandles : List (String × List (String × LiveCandle))
  applied : List Trade
  emitted : List LiveCandle
  cached1m : List LiveCandle
deriving DecidableEq, Repr

/-- The update of the instrument's open 1-minute candle by a trade
(`lib/handlers/settings-handlers.js` lines 426–473), returning the
updated state. -/
def update1mCandle (s : ClientState) (subs : List String) (instrument : String)
    (open1mCandle : LiveCandle) (trade : Trade) : ClientState :=
  if open1mCandle.timestamp + msPerMin ≤ trade.timestamp then
    let closed := { open1mCandle with isClosed := true }
    let em1 : List LiveCandle := if subs.contains "1m" then [closed] else []
    let newStart := utcAlign msPerMin trade.timestamp
    let fresh : LiveCandle :=
      { timestamp := newStart, open_ := some trade.price, high := some trade.price,
        low := some trade.price, close := some trade.price, volume := trade.size,
        instrument := instrument, timeframe := "1m", source := "T",
        isClosed := false, firstUpdate := true }
    let em2 : List LiveCandle := if subs.contains "1m" then [fresh] else []
    { s with open1mCandles := aset s.open1mCandles instrument fresh,
             emitted := s.emitted ++ em1 ++ em2,
             cached1m := s.cached1m ++ [closed] }
  else
    let upd : LiveCandle :=
      { open1mCandle with
          firstUpdate := false,
          open_ := some (match open1mCandle.open_ with
            | none => trade.price
            | some v => v),
          high := some (max (jsOr open1mCandle.high trade.price) trade.price),
          low := some (min (jsOr open1mCandle.low trade.price) trade.price),
          close := some trade.price,
          volume := open1mCandle.volume + trade.size }
    { s with open1mCandles := aset s.open1mCandles instrument upd,
             emitted := s.emitted ++ (if subs.contains "1m" then [upd] else []) }

/-- The body of the higher-timeframe loop of `processTradeForClient`
(`lib/handlers/settings-handlers.js` lines 478–518) for one
`(timeframe, openCandle)` entry, producing the updated entry and the
candles emitted for it.  The source throws on an unparsable timeframe;
states built by the handlers only hold parsable ones, so that case
leaves the entry unchanged.  The session-boundary cache consulted for
session-aligned roll-overs is modelled in its empty state (its effect
is studied with the session-alignment claims). -/
def updateOpenCandleEntry (instrument : String) (trade : Trade)
    (entry : String × LiveCandle) : (String × LiveCandle) × List LiveCandle :=
  let (timeframe, openCandle) := entry
  if timeframe = "1m" then (entry, [])
  else
    match parseTimeframeMs? timeframe with
    | none => (entry, [])
    | some intervalMs =>
      if openCandle.timestamp + intervalMs ≤ trade.timestamp then
        let closed := { openCandle with isClosed := true }
        let newStart :=
          if needsSessionAlignmentI intervalMs then
            (getSessionBasedAlignment [] trade.timestamp intervalMs).1
          else utcAlign intervalMs trade.timestamp
        let fresh : LiveCandle :=
          { timestamp := newStart, open_ := some trade.price,
            high := some trade.price, low := some trade.price,
            close := some trade.price, volume := trade.size,
            instrument := instrument, timeframe := timeframe, source := "T",
            isClosed := false, firstUpdate := false }
        ((timeframe, fresh), [closed, fresh])
      else
        let upd : LiveCandle :=
          { openCandle with
              open_ := some (match openCandle.open_ with
                | none => trade.price
                | some v => v),
              high := some (max (jsOr openCandle.high trade.price) trade.price),
              low := some (min (jsOr openCandle.low trade.price) trade.price),
              close := some trade.price,
              volume := openCandle.volume + trade.size }
        ((timeframe, upd), [upd])

/-- The higher-timeframe section of `processTradeForClient`
(`lib/handlers/settings-handlers.js` lines 476–519): each open candle
of the instrument (timeframes other than `"1m"`) is rolled over or
updated, and every produced candle is emitted in iteration order. -/
def updateOpenCandles (s : ClientState) (instrument : String) (trade : Trade) :
    ClientState :=
  match alookup s.openCandles instrument with
  | none => s
  | some openCandlesForSymbol =>
    let step := fun (acc : List (String × LiveCandle) × List LiveCandle) entry =>
      let (entry', ems) := updateOpenCandleEntry instrument trade entry
      (acc.1 ++ [entry'], acc.2 ++ ems)
    let r := openCandlesForSymbol.foldl step ([], [])
    { s with openCandles := aset s.openCandles instrument r.1,
             emitted := s.emitted ++ r.2 }

/-- Models `processTradeForClient` (`lib/handlers/settings-handlers.js`
lines 407–520): trades are dropped while live data is inactive; queued
while a timeframe change is in progress; otherwise the trade reaches
the updater (ghost `applied`), is dropped for unsubscribed instruments
or when earlier than the instrument's `next1mStart`, and else updates
the open 1-minute candle and every higher-timeframe open candle.
Lookups that cannot fail for states built by the handlers (an entry in
`next1mStarts`/`open1mCandles` for every subscribed instrument) return
the state unchanged where the source would throw. -/
def processTradeForClient (s : ClientState) (trade : Trade) : ClientState :=
  if s.isLiveActive = false then s
  else if s.isProcessingTimeframeChange then
    { s with tradeQueue := s.tradeQueue ++ [trade] }
  else
    let s := { s with applied := s.applied ++ [trade] }
    let instrument := trade.instrument
    match alookup s.activeSubscriptions instrument with
    | none => s
    | some subs =>
      match alookup s.next1mStarts instrument with
      | none => s
      | some next1mStart =>
        if trade.timestamp < next1mStart then s
        else
          match alookup s.open1mCandles instrument with
          | none => s
          | some open1mCandle =>
            let s1 := update1mCandle s subs instrument open1mCandle trade
            updateOpenCandles s1 instrument trade

/-- Setting `ws.isProcessingTimeframeChange = true` at the start of the
live-gap fetch of `handleAddTimeframe` (line 605). -/
def beginTimeframeChange (s : ClientState) : ClientState :=
  { s with isProcessingTimeframeChange := true }

/-- The completion of a timeframe change (`handleAddTimeframe` lines
682–689): the flag is reset (line 683), then the
`while (ws.tradeQueue.length > 0)` loop shifts the head off the queue
and calls `processTradeForClient(queuedTrade)` (line 688).  That
identifier is a `const` local to `handleGetData` (line 407) and is not
in scope in `handleAddTimeframe`, so with a non-empty queue the first
iteration throws a `ReferenceError` immediately after the `shift()`:
the shifted trade is lost, the remaining trades stay queued, nothing
reaches the updater, and the handler aborts.  The second component is
the thrown error (`none` when the queue is empty, in which case the
loop body never runs and nothing is thrown). -/
def completeTimeframeChange (s : ClientState) : ClientState × Option String :=
  let s1 := { s with isProcessingTimeframeChange := false }
  match s1.tradeQueue with
  | [] => (s1, none)
  | _ :: rest =>
    ({ s1 with tradeQueue := rest },
     some "ReferenceError: processTradeForClient is not defined")

/-! ### The replay engine tick (`lib/handlers/replay-handlers.js`
lines 240–359; the `modify_replay` restart at lines 435–553 installs an
identical tick body) -/

/-- Per-symbol replay data (`ws.replayData[symbol]`). -/
structure ReplaySymbolData where
  candles1m : List Candle
  currentIndex : Nat
  openAggregateCandles : List (String × Option Candle)
deriving DecidableEq, Repr

/-- The per-client replay state, with ghost logs for emitted candles and
control messages, and `timerRunning` standing for the armed
`setInterval` timer (`clearInterval` sets it to `false`). -/
structure ReplayState where
  replayData : List (String × ReplaySymbolData)
  activeReplaySubscriptions : List (String × List String)
  replayCurrentTime : Int
  replayLiveEndMs : Int
  replayIsActive : Bool
  replayIsPaused : Bool
  timerRunning : Bool
  emitted : List Candle
  ctrlMessages : List String
deriving DecidableEq, Repr

/-- The higher-timeframe aggregate update of the replay tick
(`lib/handlers/replay-handlers.js` lines 275–325) for one subscribed
timeframe: start or update the open aggregate, close it iff the fed
1-minute candle is the bucket's terminal slot, emit its current state,
and clear the slot on close.  As in the live updater, an unparsable
timeframe (where the source throws) leaves the slot unchanged, and the
session-boundary cache is modelled in its empty state. -/
def replayAggStep (symbol : String) (currentCandle : Candle)
    (acc : List (String × Option Candle) × List Candle) (timeframe : String) :
    List (String × Option Candle) × List Candle :=
  if timeframe = "1m" then acc
  else
    match parseTimeframeMs? timeframe with
    | none => acc
    | some intervalMs =>
      let baseTime :=
        if needsSessionAlignmentI intervalMs then
          (getSessionBasedAlignment [] currentCandle.timestamp intervalMs).1
        else utcAlign intervalMs currentCandle.timestamp
      let existing : Option Candle :=
        match alookup acc.1 timeframe with
        | some (some c) => some c
        | _ => none
      let openCandle : Candle :=
        match existing with
        | some c =>
          if c.timestamp = baseTime then
            { c with high := max c.high currentCandle.high,
                     low := min c.low currentCandle.low,
                     close := currentCandle.close,
                     volume := c.volume + currentCandle.volume }
          else
            { timestamp := baseTime, open_ := currentCandle.open_,
              high := currentCandle.high, low := currentCandle.low,
              close := currentCandle.close, volume := currentCandle.volume,
              instrument := symbol, timeframe := timeframe, source := "T",
              isClosed := false }
        | none =>
          { timestamp := baseTime, open_ := currentCandle.open_,
            high := currentCandle.high, low := currentCandle.low,
            close := currentCandle.close, volume := currentCandle.volume,
            instrument := symbol, timeframe := timeframe, source := "T",
            isClosed := false }
      let isLastCandleInInterval :=
        currentCandle.timestamp = baseTime + intervalMs - msPerMin
      let openCandle :=
        if isLastCandleInInterval then { openCandle with isClosed := true }
        else openCandle
      let slot : Option Candle := if openCandle.isClosed then none else some openCandle
      (aset acc.1 timeframe slot, acc.2 ++ [openCandle])

/-- One symbol's processing inside the replay tick (`lib/handlers/
replay-handlers.js` lines 255–335), folding the accumulated
`(updated replayData, emissions, anyActive, nextCandleTime)`. -/
def replayTickSymbol (subsOf : String → List String) (T : Int)
    (acc : List (String × ReplaySymbolData) × List Candle × Bool × Int)
    (entry : String × ReplaySymbolData) :
    List (String × ReplaySymbolData) × List Candle × Bool × Int :=
  let (symbol, data) := entry
  match data.candles1m[data.currentIndex]? with
  | none => (acc.1 ++ [entry], acc.2.1, acc.2.2.1, acc.2.2.2)
  | some currentCandle =>
    if currentCandle.timestamp ≤ T then
      let subs := subsOf symbol
      let em1 : List Candle :=
        if subs.contains "1m" then
          [{ currentCandle with source := "T", isClosed := true }]
        else []
      let r := subs.foldl (replayAggStep symbol currentCandle)
        (data.openAggregateCandles, [])
      let data' := { data with currentIndex := data.currentIndex + 1,
                               openAggregateCandles := r.1 }
      (acc.1 ++ [(symbol, data')], acc.2.1 ++ em1 ++ r.2, true, acc.2.2.2)
    else
      (acc.1 ++ [entry], acc.2.1, acc.2.2.1, min acc.2.2.2 currentCandle.timestamp)

/-- Models one un-stopped tick of the replay interval
(`lib/handlers/replay-handlers.js` lines 240–359): an inactive replay
clears the timer; a paused replay does nothing; otherwise every symbol
with a due candle (`ts ≤ T`) emits it and advances, the virtual clock
jumps to the earliest future candle when nothing was due, the clock is
`< liveEnd` and a future candle exists, else advances by one minute,
and passing `liveEnd` stops the timer, deactivates the replay and
emits the completion control message. -/
def replayTick (s : ReplayState) : ReplayState :=
  if s.replayIsActive = false then { s with timerRunning := false }
  else if s.replayIsPaused then s
  else
    let subsOf := fun symbol =>
      (alookup s.activeReplaySubscriptions symbol).getD []
    let r := s.replayData.foldl (replayTickSymbol subsOf s.replayCurrentTime)
      ([], [], false, maxSafeInteger)
    let anyActive := r.2.2.1
    let nextCandleTime := r.2.2.2
    let newTime :=
      if anyActive = false ∧ s.replayCurrentTime < s.replayLiveEndMs
          ∧ nextCandleTime < maxSafeInteger then
        nextCandleTime
      else s.replayCurrentTime + msPerMin
    let s' := { s with replayData := r.1, emitted := s.emitted ++ r.2.1,
                       replayCurrentTime := newTime }
    if s'.replayLiveEndMs < s'.replayCurrentTime then
      { s' with timerRunning := false, replayIsActive := false,
                ctrlMessages := s'.ctrlMessages ++ ["Replay completed"] }
    else s'

/-! ### Specification-side definitions

The following definitions follow the specification's words (not the
source); they exist only to be compared with the source-derived
definitions above. -/

/-- The UTC instant at which the Eastern (America/New_York) local clock
reads 18:00 on the civil day `d` (epoch-day count): local 18:00 of that
day, shifted by the zone offset in force then (DST iff the day lies in
the DST span; at 18:00 local this is unambiguous, both transition
instants being at 02:00 local). -/
def et1800Instant (d : Int) : Int :=
  d * msPerDay + 18 * msPerHour +
    (if dstFlagDay d then 4 * msPerHour else 5 * msPerHour)

/-- Following the spec's words: `S` = the most recent 18:00
America/New_York instant at or before `t`.  The 18:00-ET instants are
daily, so `S` is the 18:00 of `t`'s Eastern civil day if that is at or
before `t`, and the previous day's otherwise. -/
def specMostRecentSessionStart (t : Int) : Int :=
  let d := etCivilDays t
  if et1800Instant d ≤ t then et1800Instant d else et1800Instant (d - 1)

/-- Following the spec's words: the session-aligned bucket of `t` is
`S + floor((t − S) / I) * I` with `S` the most recent 18:00-ET instant
at or before `t`. -/
def specSessionBucket (t intervalMs : Int) : Int :=
  let S := specMostRecentSessionStart t
  S + (t - S).fdiv intervalMs * intervalMs

/-- Whether some symbol of the replay state has a due candle
(`ts ≤ replayCurrentTime` at its current index). -/
def anyDueBar (s : ReplayState) : Bool :=
  s.replayData.any (fun e =>
    match e.2.candles1m[e.2.currentIndex]? with
    | some c => decide (c.timestamp ≤ s.replayCurrentTime)
    | none => false)

/-- The earliest future candle timestamp over all symbols (the
current-index candle with `ts > replayCurrentTime`), with
`maxSafeInteger` when there is none. -/
def nextFutureBarTs (s : ReplayState) : Int :=
  s.replayData.foldl (fun m e =>
    match e.2.candles1m[e.2.currentIndex]? with
    | some c => if s.replayCurrentTime < c.timestamp then min m c.timestamp else m
    | none => m) maxSafeInteger

/-- Whether some symbol still has a future candle strictly before
`replayLiveEndMs` — the jump condition as the claim words it. -/
def hasFutureBarBeforeEnd (s : ReplayState) : Bool :=
  s.replayData.any (fun e =>
    match e.2.candles1m[e.2.currentIndex]? with
    | some c =>
      decide (s.replayCurrentTime < c.timestamp)
        && decide (c.timestamp < s.replayLiveEndMs)
    | none => false)

/-! ## Claim C10 — `clear_cache` with all-defaulted filters -/

/-- C10: for the `clear_cache` action, when `instrument`, `timeframe`,
`start_time` and `end_time` are each absent or equal to `'all'`, the
executed statement is `DELETE FROM CANDLES` with no `WHERE` clause, so
every cached bar for every instrument and timeframe is deleted
(whatever the comparison semantics of bound conditions would be). -/
theorem C10_clear_cache_all (instrument timeframe start_time end_time : ReqParam)
    (h1 : instrument = .absent ∨ instrument = .str "all")
    (h2 : timeframe = .absent ∨ timeframe = .str "all")
    (h3 : start_time = .absent ∨ start_time = .str "all")
    (h4 : end_time = .absent ∨ end_time = .str "all") :
    (buildClearCacheQuery instrument timeframe start_time end_time).1
      = "DELETE FROM CANDLES"
    ∧ ∀ (table : List DbCandle) (holds : DbCandle → CacheCond → Bool),
        runClearCache table
          (buildClearCacheQuery instrument timeframe start_time end_time).2 holds
          = [] := by
  have hconds :
      (buildClearCacheQuery instrument timeframe start_time end_time).2 = [] := by
    rcases h1 with h1 | h1 <;> rcases h2 with h2 | h2 <;>
      rcases h3 with h3 | h3 <;> rcases h4 with h4 | h4 <;>
      subst h1 h2 h3 h4 <;> rfl
  constructor
  · rcases h1 with h1 | h1 <;> rcases h2 with h2 | h2 <;>
      rcases h3 with h3 | h3 <;> rcases h4 with h4 | h4 <;>
      subst h1 h2 h3 h4 <;> rfl
  · intro table holds
    rw [runClearCache, hconds]
    simp

/-- Witness for C10 at concrete inputs. -/
theorem C10_clear_cache_all_witness :
    ((buildClearCacheQuery .absent (.str "all") .absent .absent).1
        = "DELETE FROM CANDLES")
    ∧ runClearCache
        [{ instrument := "ES", timeframe := "1m", timestamp := 0,
           open_ := some 1, high := some 2, low := some 1, close := some 2,
           volume := 3 }]
        (buildClearCacheQuery .absent (.str "all") .absent .absent).2
        (fun _ _ => true) = [] := by
  have h := C10_clear_cache_all .absent (.str "all") .absent .absent
    (Or.inl rfl) (Or.inr rfl) (Or.inl rfl) (Or.inl rfl)
  exact ⟨h.1, h.2 _ _⟩

/-! ## Claim C9 — null bars are never persisted -/

/-- The validity predicate on stored rows corresponding to
`isValidCandle`. -/
def isValidRow (r : DbCandle) : Bool :=
  decide (0 < r.volume) && r.open_.isSome && r.high.isSome && r.low.isSome
    && r.close.isSome

theorem mem_upsertRow {t : List DbCandle} {r q : DbCandle}
    (h : q ∈ upsertRow t r) : q ∈ t ∨ q = r := by
  rcases List.mem_append.1 h with h' | h'
  · exact Or.inl (List.mem_filter.1 h').1
  · exact Or.inr (List.mem_singleton.1 h')

theorem foldl_upsert_valid :
    ∀ (l : List LiveCandle) (t : List DbCandle),
      (∀ c ∈ l, isValidCandle c = true) → (∀ r ∈ t, isValidRow r = true) →
      ∀ r ∈ l.foldl (fun t c => upsertRow t (rowOfCandle c)) t, isValidRow r = true
  | [], _, _, ht, r, hr => ht r hr
  | c :: l, t, hl, ht, r, hr => by
    refine foldl_upsert_valid l _ (fun x hx => hl x (List.mem_cons_of_mem _ hx)) ?_ r hr
    intro q hq
    rcases mem_upsertRow hq with hq | hq
    · exact ht q hq
    · subst hq
      have := hl c (List.mem_cons_self c l)
      simp only [isValidCandle, Bool.and_eq_true, decide_eq_true_eq] at this
      simp [isValidRow, rowOfCandle, this.1.1.1.1, this.1.1.1.2, this.1.1.2, this.1.2, this.2]

theorem batchInsertCandles_valid {t : List DbCandle} (cs : List LiveCandle)
    (ht : ∀ r ∈ t, isValidRow r = true) :
    ∀ r ∈ batchInsertCandles t cs, isValidRow r = true := by
  refine foldl_upsert_valid _ _ (fun c hc => ?_) ht
  exact (List.mem_filter.1 hc).2

theorem foldl_batches_valid :
    ∀ (batches : List (List LiveCandle)) (t : List DbCandle),
      (∀ r ∈ t, isValidRow r = true) →
      ∀ r ∈ batches.foldl batchInsertCandles t, isValidRow r = true
  | [], _, ht => ht
  | b :: bs, _, ht => foldl_batches_valid bs _ (batchInsertCandles_valid b ht)

/-- C9: after any sequence of batch inserts into an initially empty
cache, a cache query returns only bars with positive volume and
non-null open, high, low and close — null bars (volume 0 or a null
OHLC field) are filtered out before the transaction and never
written. -/
theorem C9_cache_only_valid_bars (batches : List (List LiveCandle))
    (symbol : String) (startMs endMs : Int) (c : LiveCandle)
    (hc : c ∈ getCached1mCandles (batches.foldl batchInsertCandles [])
        symbol startMs endMs) :
    0 < c.volume ∧ c.open_.isSome = true ∧ c.high.isSome = true
      ∧ c.low.isSome = true ∧ c.close.isSome = true := by
  have hvalid : ∀ r ∈ batches.foldl batchInsertCandles [], isValidRow r = true :=
    foldl_batches_valid batches [] (fun r hr => by cases hr)
  rw [getCached1mCandles] at hc
  rcases List.mem_map.1 hc with ⟨r, hr, hcr⟩
  have hrt : r ∈ batches.foldl batchInsertCandles [] :=
    (List.mem_filter.1 ((List.perm_insertionSort _ _).mem_iff.1 hr)).1
  have hv := hvalid r hrt
  simp only [isValidRow, Bool.and_eq_true, decide_eq_true_eq] at hv
  subst hcr
  exact ⟨hv.1.1.1.1, hv.1.1.1.2, hv.1.1.2, hv.1.2, hv.2⟩

/-- A valid concrete live 1-minute candle, for witnesses. -/
def witValidCandle : LiveCandle :=
  { timestamp := 0
    open_ := some 5
    high := some 6
    low := some 4
    close := some 5
    volume := 7
    instrument := "ES"
    timeframe := "1m"
    source := "L"
    isClosed := true
    firstUpdate := false }

/-- A null concrete candle (no OHLC, zero volume), for witnesses. -/
def witNullCandle : LiveCandle :=
  { timestamp := 60000
    open_ := none
    high := none
    low := none
    close := none
    volume := 0
    instrument := "ES"
    timeframe := "1m"
    source := "T"
    isClosed := true
    firstUpdate := false }

/-- Witness for C9: a batch containing a null bar and a valid bar; the
query returns the valid bar (re-tagged `source = 'C'`), which
satisfies the conclusion. -/
theorem C9_cache_only_valid_bars_witness :
    0 < ({ witValidCandle with source := "C" } : LiveCandle).volume := by
  have hmem : ({ witValidCandle with source := "C" } : LiveCandle)
      ∈ getCached1mCandles
        ([[witValidCandle, witNullCandle]].foldl batchInsertCandles [])
        "ES" 0 900000 := by decide
  exact (C9_cache_only_valid_bars _ "ES" 0 900000 _ hmem).1

/-! ## Claim C8 — "Invalid start time" retry cap -/

/-- C8: the claim holds for `fetchLive1mCandles` but fails for
`startLiveTradesSubscription`.  With a vendor that rejects every
requested start (the parsed replacement being `f` of the requested
start), `fetchLive1mCandles` closes the channel and retries with the
corrected start each time, opening exactly 4 connections before
failing; `startLiveTradesSubscription`, whose invalid-start handler
throws a swallowed `ReferenceError` on the undeclared
`inactivityTimer` before reaching `destroy()` and the retry call,
opens exactly one connection, never retries, and its promise never
settles. -/
theorem C8_subscription_no_retry (vendor : Int → LiveAttemptOutcome)
    (f : Int → Int) (hrej : ∀ x, vendor x = .invalidStart (f x))
    (s0 endMs t0 : Int) :
    fetchLive1mCandles vendor s0 endMs 0
      = ([s0, f s0, f (f s0), f (f (f s0))],
         .error "Exceeded maximum retry attempts for fetching live candles")
    ∧ startLiveTradesSubscription vendor t0 0 = ([t0], .pending) := by
  constructor
  · simp [fetchLive1mCandles.eq_def, hrej]
  · simp [startLiveTradesSubscription, hrej]

/-- Witness for C8: a vendor that always rejects, suggesting one minute
later each time. -/
theorem C8_subscription_no_retry_witness :
    fetchLive1mCandles (fun x => .invalidStart (x + msPerMin)) 0 900000 0
      = ([0, 0 + msPerMin, 0 + msPerMin + msPerMin, 0 + msPerMin + msPerMin + msPerMin],
         .error "Exceeded maximum retry attempts for fetching live candles")
    ∧ startLiveTradesSubscription (fun x => .invalidStart (x + msPerMin)) 0 0
      = ([0], .pending) :=
  C8_subscription_no_retry (fun x => .invalidStart (x + msPerMin))
    (fun x => x + msPerMin) (fun _ => rfl) 0 900000 0

/-! ## Claim C4 — acquisition cushion semantics -/

/-- C4, counterexample: with cached data present (`earliest = 100`,
`latest = 1000000`) and an explicit `end_time = 500000` that lies at or
before the latest cached timestamp, `handleGetData` issues no late
refetch (the `endMs > latestCached` test fails), although the claim's
condition — the caller gave an explicit `end_time` — holds; so "a late
refetch is issued iff `end` was explicit or the gap exceeds 3 hours"
is false at this input. -/
theorem C4_counterexample :
    ¬ ((acquisitionPlan 0 2000000 100 1000000 (.explicit 500000)).lateFetch = true
      ↔ ((∃ e, (EndTimeParam.explicit 500000) = EndTimeParam.explicit e)
        ∨ LATE_CANDLE_CUSHION_MINUTES * msPerMin
            < endMsOf 2000000 (.explicit 500000) - 1000000)) := by
  intro h
  exact absurd (h.mpr (Or.inl ⟨500000, rfl⟩)) (by decide)

/-- C4, amended: when cached 1-minute bars are present for the
requested range, `handleGetData` issues the early historical refetch
iff the earliest cached timestamp minus the requested start exceeds 3
days, and issues the late historical refetch iff the requested end
exceeds the latest cached timestamp AND (the caller gave an explicit
`end_time`, or the requested end minus the latest cached timestamp
exceeds 3 hours). -/
theorem C4_amended (startMs now earliestCached latestCached : Int)
    (e : EndTimeParam) :
    ((acquisitionPlan startMs now earliestCached latestCached e).earlyFetch = true
      ↔ EARLY_CANDLE_CUSHION_MINUTES * msPerMin < earliestCached - startMs)
    ∧ ((acquisitionPlan startMs now earliestCached latestCached e).lateFetch = true
      ↔ latestCached < endMsOf now e
        ∧ ((∃ ms, e = EndTimeParam.explicit ms)
          ∨ LATE_CANDLE_CUSHION_MINUTES * msPerMin
              < endMsOf now e - latestCached)) := by
  refine ⟨?_, ?_⟩
  · simp only [acquisitionPlan]
    split_ifs <;>
      simp_all [EARLY_CANDLE_CUSHION_MINUTES, msPerMin] <;> omega
  · rcases e with _ | _ | ms <;>
      simp only [acquisitionPlan, endMsOf] <;>
      split_ifs <;>
      simp_all [LATE_CANDLE_CUSHION_MINUTES, msPerMin] <;>
      omega

/-- Witness for C4 (amended) at concrete inputs: early gap of 4 days
(refetch), explicit end past the latest cached bar (refetch). -/
theorem C4_amended_witness :
    ((acquisitionPlan 0 900000000 345600000 500000000
        (.explicit 600000000)).earlyFetch = true
      ↔ EARLY_CANDLE_CUSHION_MINUTES * msPerMin < 345600000 - 0)
    ∧ ((acquisitionPlan 0 900000000 345600000 500000000
        (.explicit 600000000)).lateFetch = true
      ↔ 500000000 < endMsOf 900000000 (.explicit 600000000)
        ∧ ((∃ ms, (EndTimeParam.explicit 600000000) = EndTimeParam.explicit ms)
          ∨ LATE_CANDLE_CUSHION_MINUTES * msPerMin
              < endMsOf 900000000 (.explicit 600000000) - 500000000)) :=
  C4_amended 0 900000000 345600000 500000000 (.explicit 600000000)

/-! ## Claim C3 — trade serialization during a timeframe change -/

theorem processTrade_queued (s : ClientState) (t : Trade)
    (hlive : s.isLiveActive = true) (hflag : s.isProcessingTimeframeChange = true) :
    processTradeForClient s t = { s with tradeQueue := s.tradeQueue ++ [t] } := by
  simp [processTradeForClient, hlive, hflag]

theorem foldl_processTrade_queued :
    ∀ (ts : List Trade) (s : ClientState), s.isLiveActive = true →
      s.isProcessingTimeframeChange = true →
      ts.foldl processTradeForClient s = { s with tradeQueue := s.tradeQueue ++ ts }
  | [], s, _, _ => by simp
  | t :: ts, s, h1, h2 => by
    rw [List.foldl_cons, processTrade_queued s t h1 h2,
      foldl_processTrade_queued ts { s with tradeQueue := s.tradeQueue ++ [t] } h1 h2]
    simp

theorem update1mCandle_frame (s : ClientState) (subs : List String)
    (instrument : String) (oc : LiveCandle) (t : Trade) :
    (update1mCandle s subs instrument oc t).applied = s.applied
    ∧ (update1mCandle s subs instrument oc t).tradeQueue = s.tradeQueue
    ∧ (update1mCandle s subs instrument oc t).isLiveActive = s.isLiveActive
    ∧ (update1mCandle s subs instrument oc t).isProcessingTimeframeChange
        = s.isProcessingTimeframeChange := by
  rw [update1mCandle]
  split <;> exact ⟨rfl, rfl, rfl, rfl⟩

theorem updateOpenCandles_frame (s : ClientState) (instrument : String) (t : Trade) :
    (updateOpenCandles s instrument t).applied = s.applied
    ∧ (updateOpenCandles s instrument t).tradeQueue = s.tradeQueue
    ∧ (updateOpenCandles s instrument t).isLiveActive = s.isLiveActive
    ∧ (updateOpenCandles s instrument t).isProcessingTimeframeChange
        = s.isProcessingTimeframeChange := by
  rw [updateOpenCandles]
  split <;> exact ⟨rfl, rfl, rfl, rfl⟩

/-- A trade processed in the live, non-transitioning state reaches the
updater (is appended to the `applied` log) and leaves the queue and the
mode flags unchanged. -/
theorem processTrade_live_step (s : ClientState) (t : Trade)
    (hlive : s.isLiveActive = true) (hflag : s.isProcessingTimeframeChange = false) :
    (processTradeForClient s t).applied = s.applied ++ [t]
    ∧ (processTradeForClient s t).tradeQueue = s.tradeQueue
    ∧ (processTradeForClient s t).isLiveActive = true
    ∧ (processTradeForClient s t).isProcessingTimeframeChange = false := by
  have h1 : ¬(s.isLiveActive = false) := by simp [hlive]
  have h2 : ¬(s.isProcessingTimeframeChange = true) := by simp [hflag]
  simp only [processTradeForClient]
  rw [if_neg h1, if_neg h2]
  cases halk : alookup s.activeSubscriptions t.instrument with
  | none => exact ⟨rfl, rfl, hlive, hflag⟩
  | some subs =>
    cases hnlk : alookup s.next1mStarts t.instrument with
    | none => exact ⟨rfl, rfl, hlive, hflag⟩
    | some n =>
      dsimp only
      by_cases hts : t.timestamp < n
      · rw [if_pos hts]
        exact ⟨rfl, rfl, hlive, hflag⟩
      · rw [if_neg hts]
        cases holk : alookup s.open1mCandles t.instrument with
        | none => exact ⟨rfl, rfl, hlive, hflag⟩
        | some oc =>
          obtain ⟨u1, u2, u3, u4⟩ := update1mCandle_frame
            { s with applied := s.applied ++ [t] } subs t.instrument oc t
          obtain ⟨v1, v2, v3, v4⟩ := updateOpenCandles_frame
            (update1mCandle { s with applied := s.applied ++ [t] } subs t.instrument oc t)
            t.instrument t
          refine ⟨?_, ?_, ?_, ?_⟩
          · rw [v1, u1]
          · rw [v2, u2]
          · rw [v3, u3]; exact hlive
          · rw [v4, u4]; exact hflag

theorem foldl_processTrade_applied :
    ∀ (us : List Trade) (s : ClientState), s.isLiveActive = true →
      s.isProcessingTimeframeChange = false →
      (us.foldl processTradeForClient s).applied = s.applied ++ us
  | [], _, _, _ => by simp
  | u :: us, s, h1, h2 => by
    rw [List.foldl_cons]
    obtain ⟨ha, _, hl, hf⟩ := processTrade_live_step s u h1 h2
    rw [foldl_processTrade_applied us _ hl hf, ha]
    simp

/-- C3: the claimed serialization fails in the source — the drain loop
of `handleAddTimeframe` (line 688) calls `processTradeForClient`, a
`const` local to `handleGetData` (line 407) and out of scope there.
While the transition flag is set, delivered trades are indeed queued
in arrival order and none reaches the updater or any open candle; but
completing the change with a non-empty queue throws a `ReferenceError`
right after the first `shift()`: the first queued trade is dropped,
none of the queued trades is ever applied, the remainder stays queued,
and trades arriving afterwards are applied ahead of them. -/
theorem C3_drain_referenceerror (s : ClientState) (t : Trade) (ts us : List Trade)
    (hlive : s.isLiveActive = true)
    (hq : s.tradeQueue = []) :
    ((t :: ts).foldl processTradeForClient (beginTimeframeChange s)).tradeQueue
        = t :: ts
    ∧ ((t :: ts).foldl processTradeForClient (beginTimeframeChange s)).applied
        = s.applied
    ∧ ((t :: ts).foldl processTradeForClient (beginTimeframeChange s)).open1mCandles
        = s.open1mCandles
    ∧ ((t :: ts).foldl processTradeForClient (beginTimeframeChange s)).openCandles
        = s.openCandles
    ∧ ((t :: ts).foldl processTradeForClient (beginTimeframeChange s)).emitted
        = s.emitted
    ∧ (completeTimeframeChange
        ((t :: ts).foldl processTradeForClient (beginTimeframeChange s))).2
        = some "ReferenceError: processTradeForClient is not defined"
    ∧ (completeTimeframeChange
        ((t :: ts).foldl processTradeForClient (beginTimeframeChange s))).1.applied
        = s.applied
    ∧ (completeTimeframeChange
        ((t :: ts).foldl processTradeForClient (beginTimeframeChange s))).1.tradeQueue
        = ts
    ∧ (us.foldl processTradeForClient
        (completeTimeframeChange
          ((t :: ts).foldl processTradeForClient (beginTimeframeChange s))).1).applied
        = s.applied ++ us := by
  have h2 := foldl_processTrade_queued (t :: ts) (beginTimeframeChange s) hlive rfl
  have hbq : (beginTimeframeChange s).tradeQueue = [] := hq
  rw [h2, hbq, List.nil_append]
  refine ⟨rfl, rfl, rfl, rfl, rfl, rfl, rfl, rfl, ?_⟩
  exact foldl_processTrade_applied us
    (completeTimeframeChange
      { beginTimeframeChange s with tradeQueue := t :: ts }).1 hlive rfl

/-- A simple live client state for the C3 and C6 witnesses: one
instrument subscribed at 1m and 5m, the open candles initialized as
`handleGetData` does at subscription start. -/
def witClientState : ClientState :=
  { isLiveActive := true
    isProcessingTimeframeChange := false
    tradeQueue := []
    activeSubscriptions := [("ES", ["1m", "5m"])]
    next1mStarts := [("ES", 0)]
    open1mCandles := [("ES",
      { timestamp := 0
        open_ := none
        high := none
        low := none
        close := none
        volume := 0
        instrument := "ES"
        timeframe := "1m"
        source := "T"
        isClosed := false
        firstUpdate := true })]
    openCandles := [("ES", [("5m",
      { timestamp := 0
        open_ := none
        high := none
        low := none
        close := none
        volume := 0
        instrument := "ES"
        timeframe := "5m"
        source := "T"
        isClosed := false
        firstUpdate := false })])]
    applied := []
    emitted := []
    cached1m := [] }

/-- First trade of the C3 witness, arriving during the change. -/
def c3wTrade1 : Trade :=
  { timestamp := 60000, price := 10, size := 1, side := "B", instrument := "ES" }

/-- Second trade of the C3 witness, arriving during the change. -/
def c3wTrade2 : Trade :=
  { timestamp := 120000, price := 11, size := 4, side := "S", instrument := "ES" }

/-- A trade of the C3 witness arriving after the failed completion. -/
def c3wTrade3 : Trade :=
  { timestamp := 180000, price := 12, size := 2, side := "B", instrument := "ES" }

/-- Witness for C3 at the concrete state `witClientState`: two trades
are queued during the change; completion throws the `ReferenceError`,
drops the first, leaves the second queued and unapplied, and a trade
arriving afterwards is applied ahead of it. -/
theorem C3_drain_referenceerror_witness :
    (([c3wTrade1, c3wTrade2]).foldl processTradeForClient
        (beginTimeframeChange witClientState)).tradeQueue = [c3wTrade1, c3wTrade2]
    ∧ (([c3wTrade1, c3wTrade2]).foldl processTradeForClient
        (beginTimeframeChange witClientState)).applied = witClientState.applied
    ∧ (([c3wTrade1, c3wTrade2]).foldl processTradeForClient
        (beginTimeframeChange witClientState)).open1mCandles
        = witClientState.open1mCandles
    ∧ (([c3wTrade1, c3wTrade2]).foldl processTradeForClient
        (beginTimeframeChange witClientState)).openCandles
        = witClientState.openCandles
    ∧ (([c3wTrade1, c3wTrade2]).foldl processTradeForClient
        (beginTimeframeChange witClientState)).emitted = witClientState.emitted
    ∧ (completeTimeframeChange
        (([c3wTrade1, c3wTrade2]).foldl processTradeForClient
          (beginTimeframeChange witClientState))).2
        = some "ReferenceError: processTradeForClient is not defined"
    ∧ (completeTimeframeChange
        (([c3wTrade1, c3wTrade2]).foldl processTradeForClient
          (beginTimeframeChange witClientState))).1.applied = witClientState.applied
    ∧ (completeTimeframeChange
        (([c3wTrade1, c3wTrade2]).foldl processTradeForClient
          (beginTimeframeChange witClientState))).1.tradeQueue = [c3wTrade2]
    ∧ ([c3wTrade3].foldl processTradeForClient
        (completeTimeframeChange
          (([c3wTrade1, c3wTrade2]).foldl processTradeForClient
            (beginTimeframeChange witClientState))).1).applied
        = witClientState.applied ++ [c3wTrade3] :=
  C3_drain_referenceerror witClientState c3wTrade1 [c3wTrade2] [c3wTrade3] rfl rfl

/-! ## Claim C6 — late trades and the live-candle updater -/

/-- A first trade that rolls the witness state's open 1-minute candle
from 0 to 120000. -/
def c6Trade1 : Trade :=
  { timestamp := 120000, price := 50, size := 5, side := "B", instrument := "ES" }

/-- A late trade, earlier than the rolled open 1-minute candle but not
earlier than the instrument's `next1mStart`. -/
def c6Trade2 : Trade :=
  { timestamp := 60000, price := 10, size := 3, side := "S", instrument := "ES" }

/-- The state after the first trade. -/
def c6State1 : ClientState := processTradeForClient witClientState c6Trade1

/-- C6, counterexample: in a reachable state whose open 1-minute candle
has rolled forward (timestamp 120000) while `next1mStart` stayed 0, a
trade with timestamp 60000 — earlier than the currently tracked open
1-minute candle — is NOT ignored: the open candles are mutated and
bars are emitted, because the guard compares against the fixed
`next1mStart`, not the current open candle's timestamp. -/
theorem C6_counterexample :
    ((alookup c6State1.open1mCandles "ES").map
      (fun oc => decide (c6Trade2.timestamp < oc.timestamp)) = some true)
    ∧ (processTradeForClient c6State1 c6Trade2).open1mCandles
        ≠ c6State1.open1mCandles
    ∧ (processTradeForClient c6State1 c6Trade2).emitted ≠ c6State1.emitted := by
  decide

/-- C6, amended: a trade earlier than the instrument's `next1mStart`
(the fixed start of live 1-minute tracking recorded at subscription
time) is ignored by the updater: no open candle (1-minute or higher
timeframe) is mutated, no bar is emitted, and nothing is written to
the cache. -/
theorem C6_amended (s : ClientState) (x : Trade) (n : Int)
    (hn : alookup s.next1mStarts x.instrument = some n)
    (hx : x.timestamp < n) :
    (processTradeForClient s x).open1mCandles = s.open1mCandles
    ∧ (processTradeForClient s x).openCandles = s.openCandles
    ∧ (processTradeForClient s x).emitted = s.emitted
    ∧ (processTradeForClient s x).cached1m = s.cached1m := by
  by_cases h1 : s.isLiveActive = false
  · simp [processTradeForClient, h1]
  · by_cases h2 : s.isProcessingTimeframeChange = true
    · simp [processTradeForClient, h1, h2]
    · cases halk : alookup s.activeSubscriptions x.instrument <;>
        simp [processTradeForClient, h1, h2, halk, hn, hx]

/-- Witness for C6 (amended): a trade before `next1mStart` leaves the
witness state's candles untouched. -/
theorem C6_amended_witness :
    (processTradeForClient witClientState
      { timestamp := -60000, price := 10, size := 3, side := "S",
        instrument := "ES" }).open1mCandles = witClientState.open1mCandles :=
  (C6_amended witClientState _ 0 (by decide) (by decide)).1

/-! ## Claim C7 — replay virtual-clock advance and completion -/

theorem replayTickSymbol_acc (subsOf : String → List String) (T : Int) :
    ∀ (rd : List (String × ReplaySymbolData)) (accL : List (String × ReplaySymbolData))
      (accE : List Candle) (accB : Bool) (accN : Int),
      (rd.foldl (replayTickSymbol subsOf T) (accL, accE, accB, accN)).2.2.1
        = (accB || rd.any (fun e =>
            match e.2.candles1m[e.2.currentIndex]? with
            | some c => decide (c.timestamp ≤ T)
            | none => false))
      ∧ (rd.foldl (replayTickSymbol subsOf T) (accL, accE, accB, accN)).2.2.2
        = rd.foldl (fun m e =>
            match e.2.candles1m[e.2.currentIndex]? with
            | some c => if T < c.timestamp then min m c.timestamp else m
            | none => m) accN
  | [], _, _, _, _ => ⟨by simp, rfl⟩
  | e :: rd, accL, accE, accB, accN => by
    rcases e with ⟨sym, data⟩
    rw [List.foldl_cons, List.foldl_cons]
    cases hl : data.candles1m[data.currentIndex]? with
    | none =>
      have hstep : replayTickSymbol subsOf T (accL, accE, accB, accN) (sym, data)
          = (accL ++ [(sym, data)], accE, accB, accN) := by
        simp only [replayTickSymbol, hl]
      rw [hstep]
      obtain ⟨ih1, ih2⟩ := replayTickSymbol_acc subsOf T rd
        (accL ++ [(sym, data)]) accE accB accN
      refine ⟨?_, ?_⟩
      · rw [ih1, List.any_cons, hl]
        simp
      · rw [ih2]
    | some c =>
      by_cases hdue : c.timestamp ≤ T
      · have hstep : replayTickSymbol subsOf T (accL, accE, accB, accN) (sym, data)
            = (accL ++ [(sym, { data with
                  currentIndex := data.currentIndex + 1,
                  openAggregateCandles :=
                    ((subsOf sym).foldl (replayAggStep sym c)
                      (data.openAggregateCandles, [])).1 })],
               accE
                ++ (if (subsOf sym).contains "1m" then
                      [{ c with source := "T", isClosed := true }] else [])
                ++ ((subsOf sym).foldl (replayAggStep sym c)
                      (data.openAggregateCandles, [])).2,
               true, accN) := by
          simp only [replayTickSymbol, hl]
          rw [if_pos hdue]
        rw [hstep]
        obtain ⟨ih1, ih2⟩ := replayTickSymbol_acc subsOf T rd _ _ true accN
        refine ⟨?_, ?_⟩
        · rw [ih1, List.any_cons, hl]
          simp [hdue]
        · rw [ih2]
          dsimp only
          rw [if_neg (by omega)]
      · have hstep : replayTickSymbol subsOf T (accL, accE, accB, accN) (sym, data)
            = (accL ++ [(sym, data)], accE, accB, min accN c.timestamp) := by
          simp only [replayTickSymbol, hl]
          rw [if_neg hdue]
        rw [hstep]
        obtain ⟨ih1, ih2⟩ := replayTickSymbol_acc subsOf T rd _ _ accB (min accN c.timestamp)
        refine ⟨?_, ?_⟩
        · rw [ih1, List.any_cons, hl]
          simp [hdue]
        · rw [ih2]
          dsimp only
          rw [if_pos (by omega)]

/-- C7, amended: on every un-paused tick of an active replay, if no
instrument has a due bar (`ts ≤ T`), the clock is still before
`live_end`, and some instrument has a future bar (at any timestamp),
the virtual clock jumps to the earliest such bar's timestamp; in every
other case it advances by exactly 60000 ms.  Once the updated clock
exceeds `live_end`, the tick timer is stopped, the replay is marked
inactive and a completion control message is emitted; otherwise the
replay stays active. -/
theorem C7_replay_tick (s : ReplayState)
    (ha : s.replayIsActive = true) (hp : s.replayIsPaused = false) :
    ((anyDueBar s = false ∧ s.replayCurrentTime < s.replayLiveEndMs
        ∧ nextFutureBarTs s < maxSafeInteger) →
      (replayTick s).replayCurrentTime = nextFutureBarTs s)
    ∧ (¬(anyDueBar s = false ∧ s.replayCurrentTime < s.replayLiveEndMs
        ∧ nextFutureBarTs s < maxSafeInteger) →
      (replayTick s).replayCurrentTime = s.replayCurrentTime + msPerMin)
    ∧ (s.replayLiveEndMs < (replayTick s).replayCurrentTime →
      (replayTick s).replayIsActive = false ∧ (replayTick s).timerRunning = false
        ∧ "Replay completed" ∈ (replayTick s).ctrlMessages)
    ∧ ((replayTick s).replayCurrentTime ≤ s.replayLiveEndMs →
      (replayTick s).replayIsActive = true) := by
  have h1 : ¬(s.replayIsActive = false) := by simp [ha]
  have h2 : ¬(s.replayIsPaused = true) := by simp [hp]
  obtain ⟨hB, hN⟩ := replayTickSymbol_acc
    (fun symbol => (alookup s.activeReplaySubscriptions symbol).getD [])
    s.replayCurrentTime s.replayData [] [] false maxSafeInteger
  simp only [replayTick]
  rw [if_neg h1, if_neg h2]
  simp only [hB, hN, Bool.false_or]
  rw [show (s.replayData.any (fun e =>
      match e.2.candles1m[e.2.currentIndex]? with
      | some c => decide (c.timestamp ≤ s.replayCurrentTime)
      | none => false)) = anyDueBar s from rfl]
  rw [show (s.replayData.foldl (fun m e =>
      match e.2.candles1m[e.2.currentIndex]? with
      | some c => if s.replayCurrentTime < c.timestamp then min m c.timestamp else m
      | none => m) maxSafeInteger) = nextFutureBarTs s from rfl]
  by_cases hc : anyDueBar s = false ∧ s.replayCurrentTime < s.replayLiveEndMs
      ∧ nextFutureBarTs s < maxSafeInteger
  · rw [if_pos hc]
    by_cases hend : s.replayLiveEndMs < nextFutureBarTs s
    · rw [if_pos hend]
      refine ⟨fun _ => rfl, fun h => absurd hc h, fun _ => ⟨rfl, rfl, by simp⟩, ?_⟩
      intro h
      dsimp only at h
      exact absurd h (by omega)
    · rw [if_neg hend]
      exact ⟨fun _ => rfl, fun h => absurd hc h, fun h => absurd h hend,
        fun _ => ha⟩
  · rw [if_neg hc]
    by_cases hend : s.replayLiveEndMs < s.replayCurrentTime + msPerMin
    · rw [if_pos hend]
      refine ⟨fun h => absurd h hc, fun _ => rfl, fun _ => ⟨rfl, rfl, by simp⟩, ?_⟩
      intro h
      dsimp only at h
      exact absurd h (by omega)
    · rw [if_neg hend]
      exact ⟨fun h => absurd h hc, fun _ => rfl, fun h => absurd h hend,
        fun _ => ha⟩

/-- A replay state whose only future bar sits exactly at `live_end`:
one symbol, one 1-minute bar at 120000, clock at 0. -/
def c7State : ReplayState :=
  { replayData := [("ES",
      { candles1m := [{ timestamp := 120000, open_ := 1, high := 1, low := 1,
                        close := 1, volume := 1, instrument := "ES",
                        timeframe := "1m", source := "H", isClosed := true }]
        currentIndex := 0
        openAggregateCandles := [] })]
    activeReplaySubscriptions := [("ES", ["1m"])]
    replayCurrentTime := 0
    replayLiveEndMs := 120000
    replayIsActive := true
    replayIsPaused := false
    timerRunning := true
    emitted := []
    ctrlMessages := [] }

/-- C7, counterexample: in `c7State` no bar is due and no instrument
has a future bar strictly before `live_end` (the only bar sits exactly
at `live_end = 120000`), so the claim prescribes advancing the clock by
exactly 60000 ms; the tick instead jumps the clock to 120000. -/
theorem C7_counterexample :
    anyDueBar c7State = false
    ∧ hasFutureBarBeforeEnd c7State = false
    ∧ (replayTick c7State).replayCurrentTime
        ≠ c7State.replayCurrentTime + msPerMin
    ∧ (replayTick c7State).replayCurrentTime = 120000 := by decide

/-- Witness for C7 at the concrete state `c7State` (which is un-paused
and active): its jump condition holds, so the clock moves to the
earliest future bar. -/
theorem C7_replay_tick_witness :
    (replayTick c7State).replayCurrentTime = nextFutureBarTs c7State :=
  (C7_replay_tick c7State rfl rfl).1 ⟨by decide, by decide, by decide⟩

/-! ## Aggregation machinery for claims C1 and C2 -/

theorem utcAlign_dvd (I t : Int) : I ∣ utcAlign I t :=
  ⟨t.fdiv I, mul_comm _ _⟩

theorem utcAlign_le {I : Int} (hI : 0 < I) (t : Int) : utcAlign I t ≤ t := by
  rw [utcAlign, Int.fdiv_eq_ediv _ hI.le]
  exact Int.ediv_mul_le t (ne_of_gt hI)

theorem lt_utcAlign_add {I : Int} (hI : 0 < I) (t : Int) : t < utcAlign I t + I := by
  rw [utcAlign, Int.fdiv_eq_ediv _ hI.le]
  have := Int.lt_ediv_add_one_mul_self t hI
  nlinarith [this]

theorem utcAlign_mono {I : Int} (hI : 0 < I) {a b : Int} (h : a ≤ b) :
    utcAlign I a ≤ utcAlign I b := by
  rw [utcAlign, utcAlign, Int.fdiv_eq_ediv _ hI.le, Int.fdiv_eq_ediv _ hI.le]
  exact mul_le_mul_of_nonneg_right (Int.ediv_le_ediv hI h) hI.le

theorem utcAlign_eq_iff {I B : Int} (hI : 0 < I) (hB : I ∣ B) (t : Int) :
    utcAlign I t = B ↔ B ≤ t ∧ t < B + I := by
  constructor
  · intro h
    exact ⟨h ▸ utcAlign_le hI t, h ▸ lt_utcAlign_add hI t⟩
  · rintro ⟨h1, h2⟩
    obtain ⟨k, rfl⟩ := hB
    rw [utcAlign, Int.fdiv_eq_ediv _ hI.le]
    have hk1 : k ≤ t / I := by
      rw [Int.le_ediv_iff_mul_le hI]
      nlinarith [h1]
    have hk2 : t / I ≤ k := by
      by_contra hcon
      push_neg at hcon
      have h3 : (k + 1) * I ≤ t / I * I :=
        mul_le_mul_of_nonneg_right (by omega) hI.le
      have h4 : t / I * I ≤ t := Int.ediv_mul_le t (ne_of_gt hI)
      nlinarith
    have : t / I = k := le_antisymm hk2 hk1
    rw [this, mul_comm]

theorem parseTimeframeMs?_dvd {tf : String} {I : Int}
    (h : parseTimeframeMs? tf = some I) : msPerMin ∣ I := by
  rw [parseTimeframeMs?] at h
  split at h
  · exact absurd h (by simp)
  · split_ifs at h with h1 h2 h3 <;>
      first
      | exact (Option.some.inj h) ▸ Dvd.dvd.mul_left (by decide) _
      | exact absurd h (by simp)
  · exact absurd h (by simp)

theorem foldl_max_ts_mem : ∀ (l : List Candle) (a : Int),
    l.foldl (fun m x => max m x.timestamp) a = a
      ∨ l.foldl (fun m x => max m x.timestamp) a ∈ l.map Candle.timestamp
  | [], _ => Or.inl rfl
  | c :: l, a => by
    rcases foldl_max_ts_mem l (max a c.timestamp) with h | h
    · rw [List.foldl_cons, h]
      rcases max_choice a c.timestamp with h' | h'
      · exact Or.inl h'
      · exact Or.inr (by rw [h']; exact List.mem_map_of_mem _ (List.mem_cons_self _ _))
    · exact Or.inr (List.mem_cons_of_mem _ h)

theorem foldl_max_ts_le : ∀ (l : List Candle) (a : Int),
    a ≤ l.foldl (fun m x => max m x.timestamp) a
      ∧ ∀ x ∈ l, x.timestamp ≤ l.foldl (fun m x => max m x.timestamp) a
  | [], _ => ⟨le_refl _, fun x hx => absurd hx (List.not_mem_nil x)⟩
  | c :: l, a => by
    obtain ⟨ih1, ih2⟩ := foldl_max_ts_le l (max a c.timestamp)
    refine ⟨le_trans (le_max_left _ _) ih1, fun x hx => ?_⟩
    rcases List.mem_cons.1 hx with rfl | hx
    · exact le_trans (le_max_right _ _) ih1
    · exact ih2 x hx

theorem maxTimestamp_mem {S : List Candle} (h : S ≠ []) :
    maxTimestamp S ∈ S.map Candle.timestamp := by
  cases S with
  | nil => exact absurd rfl h
  | cons c l =>
    rw [maxTimestamp]
    rcases foldl_max_ts_mem l c.timestamp with h' | h'
    · rw [h']
      exact List.mem_map_of_mem _ (List.mem_cons_self _ _)
    · exact List.mem_cons_of_mem _ h'

theorem maxTimestamp_ub {S : List Candle} (x : Candle) (hx : x ∈ S) :
    x.timestamp ≤ maxTimestamp S := by
  cases S with
  | nil => exact absurd hx (List.not_mem_nil x)
  | cons c l =>
    rw [maxTimestamp]
    obtain ⟨h1, h2⟩ := foldl_max_ts_le l c.timestamp
    rcases List.mem_cons.1 hx with rfl | hx
    · exact h1
    · exact h2 x hx

theorem foldl_aggUpdate_timestamp : ∀ (gs : List Candle) (st : AggCur),
    (gs.foldl aggUpdate st).cur.timestamp = st.cur.timestamp
  | [], _ => rfl
  | c :: gs, st => by
    rw [List.foldl_cons, foldl_aggUpdate_timestamp gs (aggUpdate st c)]
    rfl

theorem foldl_aggUpdate_open : ∀ (gs : List Candle) (st : AggCur),
    (gs.foldl aggUpdate st).cur.open_ = st.cur.open_
  | [], _ => rfl
  | c :: gs, st => by
    rw [List.foldl_cons, foldl_aggUpdate_open gs (aggUpdate st c)]
    rfl

theorem getLast?_getD_cons : ∀ (l : List Rat) (a d : Rat),
    ((a :: l).getLast?).getD d = (l.getLast?).getD a
  | [], _, _ => rfl
  | b :: l, a, d => by
    rw [List.getLast?_cons_cons]
    rw [getLast?_getD_cons l b d, getLast?_getD_cons l b a]

theorem foldl_aggUpdate_close : ∀ (gs : List Candle) (st : AggCur),
    (gs.foldl aggUpdate st).cur.close = ((gs.map Candle.close).getLast?).getD st.cur.close
  | [], _ => rfl
  | c :: gs, st => by
    rw [List.foldl_cons, foldl_aggUpdate_close gs (aggUpdate st c), List.map_cons,
      getLast?_getD_cons]
    rfl

theorem foldl_aggUpdate_volume : ∀ (gs : List Candle) (st : AggCur),
    (gs.foldl aggUpdate st).cur.volume = st.cur.volume + (gs.map Candle.volume).sum
  | [], _ => by simp
  | c :: gs, st => by
    rw [List.foldl_cons, foldl_aggUpdate_volume gs (aggUpdate st c)]
    show st.cur.volume + c.volume + (gs.map Candle.volume).sum = _
    rw [List.map_cons, List.sum_cons]
    omega

theorem foldl_aggUpdate_tses : ∀ (gs : List Candle) (st : AggCur),
    (gs.foldl aggUpdate st).tses = st.tses ++ gs.map Candle.timestamp
  | [], _ => by simp
  | c :: gs, st => by
    rw [List.foldl_cons, foldl_aggUpdate_tses gs (aggUpdate st c)]
    show (st.tses ++ [c.timestamp]) ++ gs.map Candle.timestamp = _
    rw [List.map_cons, List.append_assoc]
    rfl

theorem foldl_aggUpdate_high_mem : ∀ (gs : List Candle) (st : AggCur),
    (gs.foldl aggUpdate st).cur.high = st.cur.high
      ∨ (gs.foldl aggUpdate st).cur.high ∈ gs.map Candle.high
  | [], _ => Or.inl rfl
  | c :: gs, st => by
    rcases foldl_aggUpdate_high_mem gs (aggUpdate st c) with h | h
    · rw [List.foldl_cons, h]
      rcases max_choice st.cur.high c.high with h' | h'
      · exact Or.inl h'
      · exact Or.inr (by rw [show (aggUpdate st c).cur.high = max st.cur.high c.high from rfl, h']; exact List.mem_map_of_mem _ (List.mem_cons_self _ _))
    · exact Or.inr (List.mem_cons_of_mem _ (by rw [List.foldl_cons]; exact h))

theorem foldl_aggUpdate_high_ub : ∀ (gs : List Candle) (st : AggCur),
    st.cur.high ≤ (gs.foldl aggUpdate st).cur.high
      ∧ ∀ x ∈ gs, x.high ≤ (gs.foldl aggUpdate st).cur.high
  | [], _ => ⟨le_refl _, fun x hx => absurd hx (List.not_mem_nil x)⟩
  | c :: gs, st => by
    obtain ⟨ih1, ih2⟩ := foldl_aggUpdate_high_ub gs (aggUpdate st c)
    have hm : max st.cur.high c.high ≤ (gs.foldl aggUpdate (aggUpdate st c)).cur.high := ih1
    refine ⟨le_trans (le_max_left _ _) hm, fun x hx => ?_⟩
    rcases List.mem_cons.1 hx with rfl | hx
    · exact le_trans (le_max_right _ _) hm
    · exact ih2 x hx

theorem foldl_aggUpdate_low_mem : ∀ (gs : List Candle) (st : AggCur),
    (gs.foldl aggUpdate st).cur.low = st.cur.low
      ∨ (gs.foldl aggUpdate st).cur.low ∈ gs.map Candle.low
  | [], _ => Or.inl rfl
  | c :: gs, st => by
    rcases foldl_aggUpdate_low_mem gs (aggUpdate st c) with h | h
    · rw [List.foldl_cons, h]
      rcases min_choice st.cur.low c.low with h' | h'
      · exact Or.inl h'
      · exact Or.inr (by rw [show (aggUpdate st c).cur.low = min st.cur.low c.low from rfl, h']; exact List.mem_map_of_mem _ (List.mem_cons_self _ _))
    · exact Or.inr (List.mem_cons_of_mem _ (by rw [List.foldl_cons]; exact h))


theorem aggClose_timestamp (I m : Int) (st : AggCur) :
    (aggClose I m st).timestamp = st.cur.timestamp := rfl

/-- Characterization of the aggregation loop under UTC alignment, for a
sorted input: every emitted bar equals the closed summary of exactly
the input bars whose aligned bucket is the bar's timestamp. -/
theorem aggLoop_utc_char (inst tf : String) {I : Int} (maxTs : Int) (hI : 0 < I) :
    ∀ (rest : List Candle) (g0 : Candle) (gs : List Candle)
      (cache : List (Int × Int)) (b : Candle),
      (∀ x ∈ g0 :: gs, utcAlign I x.timestamp = utcAlign I g0.timestamp) →
      ((g0 :: gs) ++ rest).Pairwise tsLE →
      b ∈ aggLoop inst tf I false maxTs rest
        (some (gs.foldl aggUpdate
          (aggInit inst tf (utcAlign I g0.timestamp) g0))) cache →
      ∃ h0 hs, ((g0 :: gs) ++ rest).filter
          (fun x => decide (utcAlign I x.timestamp = b.timestamp)) = h0 :: hs
        ∧ b = aggClose I maxTs (hs.foldl aggUpdate (aggInit inst tf b.timestamp h0))
  | [], g0, gs, cache, b, hg, _, hb => by
    simp only [aggLoop, List.mem_singleton] at hb
    subst hb
    have hts : (aggClose I maxTs (gs.foldl aggUpdate
        (aggInit inst tf (utcAlign I g0.timestamp) g0))).timestamp
        = utcAlign I g0.timestamp := by
      rw [aggClose_timestamp, foldl_aggUpdate_timestamp]
      rfl
    refine ⟨g0, gs, ?_, ?_⟩
    · rw [List.append_nil, List.filter_eq_self.mpr]
      intro x hx
      rw [decide_eq_true_iff, hts]
      exact hg x hx
    · rw [hts]
  | c :: rest, g0, gs, cache, b, hg, hsort, hb => by
    have hstts : (gs.foldl aggUpdate
        (aggInit inst tf (utcAlign I g0.timestamp) g0)).cur.timestamp
        = utcAlign I g0.timestamp := by
      rw [foldl_aggUpdate_timestamp]
      rfl
    have hsort2 : (g0 :: (gs ++ (c :: rest))).Pairwise tsLE := by
      rw [← List.cons_append]; exact hsort
    obtain ⟨hhead, htail⟩ := List.pairwise_cons.1 hsort2
    have hcmem : c ∈ gs ++ (c :: rest) :=
      List.mem_append.2 (Or.inr (List.mem_cons_self _ _))
    have hg0c : utcAlign I g0.timestamp ≤ utcAlign I c.timestamp :=
      utcAlign_mono hI (hhead c hcmem)
    have hcrest : (c :: rest).Pairwise tsLE :=
      List.Pairwise.sublist (List.sublist_append_right gs (c :: rest)) htail
    have hcx : ∀ x ∈ c :: rest, c.timestamp ≤ x.timestamp := by
      intro x hx
      rcases List.mem_cons.1 hx with rfl | hx
      · exact le_refl _
      · exact (List.pairwise_cons.1 hcrest).1 x hx
    simp only [aggLoop, alignStep, Bool.false_eq_true, if_false] at hb
    rw [hstts] at hb
    by_cases hceq : utcAlign I c.timestamp = utcAlign I g0.timestamp
    · rw [if_pos hceq] at hb
      have hupd : aggUpdate (gs.foldl aggUpdate
          (aggInit inst tf (utcAlign I g0.timestamp) g0)) c
          = (gs ++ [c]).foldl aggUpdate (aggInit inst tf (utcAlign I g0.timestamp) g0) := by
        rw [List.foldl_append]
        rfl
      rw [hupd] at hb
      have hg' : ∀ x ∈ g0 :: (gs ++ [c]),
          utcAlign I x.timestamp = utcAlign I g0.timestamp := by
        intro x hx
        rcases List.mem_cons.1 hx with rfl | hx
        · rfl
        rcases List.mem_append.1 hx with hx | hx
        · exact hg x (List.mem_cons_of_mem _ hx)
        · rw [List.mem_singleton.1 hx]
          exact hceq
      have hlisteq : (g0 :: (gs ++ [c])) ++ rest = (g0 :: gs) ++ (c :: rest) := by
        simp
      have hsort' : ((g0 :: (gs ++ [c])) ++ rest).Pairwise tsLE := by
        rw [hlisteq]
        exact hsort
      obtain ⟨h0, hs, hfilt, hbeq⟩ := aggLoop_utc_char inst tf maxTs hI rest g0
        (gs ++ [c]) cache b hg' hsort' hb
      refine ⟨h0, hs, ?_, hbeq⟩
      rw [← hlisteq]
      exact hfilt
    · rw [if_neg hceq] at hb
      have hglt : utcAlign I g0.timestamp < utcAlign I c.timestamp :=
        lt_of_le_of_ne hg0c (Ne.symm hceq)
      rcases List.mem_cons.1 hb with rfl | hb
      · have hts : (aggClose I maxTs (gs.foldl aggUpdate
            (aggInit inst tf (utcAlign I g0.timestamp) g0))).timestamp
            = utcAlign I g0.timestamp := by
          rw [aggClose_timestamp, foldl_aggUpdate_timestamp]
          rfl
        refine ⟨g0, gs, ?_, ?_⟩
        · rw [hts, List.filter_append]
          have h1 : (g0 :: gs).filter
              (fun x => decide (utcAlign I x.timestamp = utcAlign I g0.timestamp))
              = g0 :: gs :=
            List.filter_eq_self.mpr (fun x hx => decide_eq_true_iff.2 (hg x hx))
          have h2 : (c :: rest).filter
              (fun x => decide (utcAlign I x.timestamp = utcAlign I g0.timestamp))
              = [] :=
            List.filter_eq_nil_iff.mpr (fun x hx => by
              simp only [decide_eq_true_iff]
              have := utcAlign_mono hI (hcx x hx)
              omega)
          rw [h1, h2, List.append_nil]
        · rw [hts]
      · obtain ⟨h0, hs, hfilt, hbeq⟩ := aggLoop_utc_char inst tf maxTs hI rest c
          [] cache b (by
            intro x hx
            rw [List.mem_singleton.1 hx]) (by
            rw [List.singleton_append]
            exact hcrest) hb
        rw [List.singleton_append] at hfilt
        have hh0 : h0 ∈ (c :: rest).filter
            (fun x => decide (utcAlign I x.timestamp = b.timestamp)) := by
          rw [hfilt]
          exact List.mem_cons_self _ _
        obtain ⟨hh0mem, hh0pred⟩ := List.mem_filter.1 hh0
        have hbts : utcAlign I h0.timestamp = b.timestamp :=
          decide_eq_true_iff.1 hh0pred
        have hblt : utcAlign I g0.timestamp < b.timestamp := by
          have h3 : utcAlign I c.timestamp ≤ utcAlign I h0.timestamp :=
            utcAlign_mono hI (hcx h0 hh0mem)
          omega
        refine ⟨h0, hs, ?_, hbeq⟩
        rw [List.filter_append]
        have h1 : (g0 :: gs).filter
            (fun x => decide (utcAlign I x.timestamp = b.timestamp)) = [] := by
          rw [List.filter_eq_nil_iff]
          intro x hx
          rw [decide_eq_true_iff, hg x hx]
          omega
        rw [h1, List.nil_append]
        exact hfilt

/-- The characterization at the loop's entry point (empty open candle). -/
theorem aggLoop_utc_char_start (inst tf : String) {I : Int} (maxTs : Int)
    (hI : 0 < I) (S : List Candle) (cache : List (Int × Int)) (b : Candle)
    (hsort : S.Pairwise tsLE)
    (hb : b ∈ aggLoop inst tf I false maxTs S none cache) :
    ∃ h0 hs, S.filter (fun x => decide (utcAlign I x.timestamp = b.timestamp))
        = h0 :: hs
      ∧ b = aggClose I maxTs (hs.foldl aggUpdate (aggInit inst tf b.timestamp h0)) := by
  cases S with
  | nil => simp [aggLoop] at hb
  | cons c rest =>
    simp only [aggLoop, alignStep, Bool.false_eq_true, if_false] at hb
    have hstart : aggInit inst tf (utcAlign I c.timestamp) c
        = [].foldl aggUpdate (aggInit inst tf (utcAlign I c.timestamp) c) := rfl
    rw [hstart] at hb
    have h := aggLoop_utc_char inst tf maxTs hI rest c [] cache b
      (by intro x hx; rw [List.mem_singleton.1 hx]) (by
        rw [List.singleton_append]
        exact hsort) hb
    rw [List.singleton_append] at h
    exact h

instance : IsTotal Candle tsLE := ⟨fun a b => le_total a.timestamp b.timestamp⟩

instance : IsTrans Candle tsLE := ⟨fun _ _ _ h1 h2 => le_trans h1 h2⟩

/-- The characterization lifted to `aggregateCandles` (UTC-aligned
timeframes): every produced bar summarizes the sorted input's bars in
its bucket. -/
theorem aggregateCandles_utc_char (inst tf : String) {I : Int} (start endv : Int)
    (S : List Candle) (b : Candle)
    (hparse : parseTimeframeMs? tf = some I) (hI : 0 < I)
    (hsess : needsSessionAlignmentI I = false) (h1m : tf ≠ "1m")
    (hb : b ∈ (aggregateCandles inst tf start endv S).getD []) :
    ∃ h0 hs, (S.insertionSort tsLE).filter
        (fun x => decide (utcAlign I x.timestamp = b.timestamp)) = h0 :: hs
      ∧ b = aggClose I (maxTimestamp S)
          (hs.foldl aggUpdate (aggInit inst tf b.timestamp h0)) := by
  rw [aggregateCandles, if_neg h1m, hparse] at hb
  simp only [hsess, Bool.false_eq_true, if_false] at hb
  have hb2 : b ∈ aggLoop inst tf I false (maxTimestamp S)
      (S.insertionSort tsLE) none [] := List.mem_of_mem_filter hb
  exact aggLoop_utc_char_start inst tf (maxTimestamp S) hI _ [] b
    (List.sorted_insertionSort tsLE S) hb2

/-- C2, amended: for every input 1-minute series and every UTC-aligned
timeframe (interval not in the session-aligned band), an output bar of
`aggregateCandles` with start `B` and interval `I` has `isClosed = true`
iff some input 1-minute bar has timestamp `≥ B + I`, or the bucket's
final 1-minute slot `B + I − 60000` is present in the input; otherwise
`isClosed = false`. -/
theorem C2_close_semantics (inst tf : String) {I : Int} (start endv : Int)
    (S : List Candle) (b : Candle)
    (hparse : parseTimeframeMs? tf = some I) (hI : 0 < I)
    (hsess : needsSessionAlignmentI I = false) (h1m : tf ≠ "1m")
    (hb : b ∈ (aggregateCandles inst tf start endv S).getD []) :
    b.isClosed = true ↔
      ((∃ y ∈ S, b.timestamp + I ≤ y.timestamp)
        ∨ (b.timestamp + I - msPerMin) ∈ S.map Candle.timestamp) := by
  obtain ⟨h0, hs, hfilt, hbeq⟩ := aggregateCandles_utc_char inst tf start endv S b
    hparse hI hsess h1m hb
  have hIm : msPerMin ≤ I := Int.le_of_dvd hI (parseTimeframeMs?_dvd hparse)
  have hminpos : (0 : Int) < msPerMin := by decide
  have hh0 : h0 ∈ (S.insertionSort tsLE).filter
      (fun x => decide (utcAlign I x.timestamp = b.timestamp)) := by
    rw [hfilt]
    exact List.mem_cons_self _ _
  obtain ⟨hh0mem, hh0pred⟩ := List.mem_filter.1 hh0
  have hbts : utcAlign I h0.timestamp = b.timestamp := decide_eq_true_iff.1 hh0pred
  have hdvd : I ∣ b.timestamp := hbts ▸ utcAlign_dvd I h0.timestamp
  have hSne : S ≠ [] := by
    intro hS
    subst hS
    simp [List.insertionSort] at hh0mem
  have h1 : (hs.foldl aggUpdate (aggInit inst tf b.timestamp h0)).cur.timestamp
      = b.timestamp := by
    rw [foldl_aggUpdate_timestamp]
    rfl
  have h2 : (hs.foldl aggUpdate (aggInit inst tf b.timestamp h0)).tses
      = h0.timestamp :: hs.map Candle.timestamp := by
    rw [foldl_aggUpdate_tses]
    rfl
  have hiso : b.isClosed = (decide (b.timestamp + I ≤ maxTimestamp S)
      || (h0.timestamp :: hs.map Candle.timestamp).contains
          (b.timestamp + I - msPerMin)) := by
    conv_lhs => rw [hbeq]
    show (decide ((hs.foldl aggUpdate (aggInit inst tf b.timestamp h0)).cur.timestamp
        + I ≤ maxTimestamp S)
      || (hs.foldl aggUpdate (aggInit inst tf b.timestamp h0)).tses.contains
          ((hs.foldl aggUpdate (aggInit inst tf b.timestamp h0)).cur.timestamp
            + I - msPerMin)) = _
    rw [h1, h2]
  rw [hiso, Bool.or_eq_true, decide_eq_true_iff]
  constructor
  · rintro (hlater | hcont)
    · obtain ⟨y, hy, hyts⟩ := List.mem_map.1 (maxTimestamp_mem hSne)
      exact Or.inl ⟨y, hy, by omega⟩
    · have hmem : (b.timestamp + I - msPerMin) ∈ (h0 :: hs).map Candle.timestamp := by
        rw [List.map_cons]
        exact List.mem_of_elem_eq_true hcont
      obtain ⟨y, hy, hyts⟩ := List.mem_map.1 hmem
      have hyS : y ∈ S := by
        have : y ∈ (S.insertionSort tsLE).filter
            (fun x => decide (utcAlign I x.timestamp = b.timestamp)) := by
          rw [hfilt]
          exact hy
        exact (List.perm_insertionSort tsLE S).mem_iff.1 (List.mem_of_mem_filter this)
      exact Or.inr (hyts ▸ List.mem_map_of_mem _ hyS)
  · rintro (⟨y, hy, hyle⟩ | hmem)
    · exact Or.inl (le_trans hyle (maxTimestamp_ub y hy))
    · obtain ⟨y, hy, hyts⟩ := List.mem_map.1 hmem
      have hypred : utcAlign I y.timestamp = b.timestamp := by
        rw [utcAlign_eq_iff hI hdvd]
        omega
      have hymem : y ∈ (S.insertionSort tsLE).filter
          (fun x => decide (utcAlign I x.timestamp = b.timestamp)) :=
        List.mem_filter.2 ⟨(List.perm_insertionSort tsLE S).mem_iff.2 hy,
          decide_eq_true_iff.2 hypred⟩
      rw [hfilt] at hymem
      refine Or.inr (List.elem_eq_true_of_mem ?_)
      rw [← List.map_cons]
      exact hyts ▸ List.mem_map_of_mem _ hymem

/-- Start of the C1/C2 counterexample series: 2024-01-10 22:23:00 UTC.
The previous 18:00-ET session start is 2024-01-09 23:00 UTC, and
22:23 UTC is exactly 23 intervals of 61 minutes after it, so the series
start is a session-aligned "61m" bucket start; the session day rolls at
23:00 UTC, truncating that bucket to 37 minutes. -/
def cexA : Int := 19732 * msPerDay + 80580000

/-- Bar `k` of the counterexample series: one gapless 1-minute bar per
minute, with close `k` and volume 1. -/
def cexBar (k : Nat) : Candle :=
  { timestamp := cexA + msPerMin * (k : Int), open_ := (k : Rat), high := (k : Rat),
    low := (k : Rat), close := (k : Rat), volume := 1, instrument := "ES",
    timeframe := "1m", source := "H", isClosed := true }

/-- The chronologically sorted, gapless 61-bar 1-minute series covering
one full 61-minute bucket from `cexA`. -/
def cexSeries : List Candle := (List.range 61).map cexBar

set_option maxRecDepth 100000 in
/-- C1, counterexample: aggregating the gapless series `cexSeries` (no
gaps over `[cexA, cexA + 60*60000]`) to the session-aligned timeframe
`"61m"` (interval 3660000) produces a bar with bucket start `B = cexA`
whose close is the close of the 1-minute bar at `B + 37*60000 - 60000`
(the last bar before the 18:00-ET session roll), not the close of the
bar at `B + I - 60000`, and whose volume is 37, not the sum 61 over
`[B, B+I)` — refuting the claimed equations for this timeframe. -/
theorem C1_counterexample :
    parseTimeframeMs? "61m" = some 3660000
    ∧ (∃ out ∈ (aggregateCandles "ES" "61m" cexA (cexA + 3600000) cexSeries).getD [],
        out.timestamp = cexA
        ∧ (∀ y ∈ cexSeries, y.timestamp = cexA + 3660000 - msPerMin →
            out.close ≠ y.close)
        ∧ out.volume ≠ ((cexSeries.filter (fun z =>
            decide (cexA ≤ z.timestamp)
              && decide (z.timestamp < cexA + 3660000))).map Candle.volume).sum) := by
  decide

set_option maxRecDepth 100000 in
/-- C2, counterexample: in the same aggregation, the output bar with
start `B = cexA` has `isClosed = false` although the bucket's final
1-minute slot `B + I - 60000` is present in the input — the code only
consults the slots actually grouped into the (session-truncated)
bucket, so the claimed iff fails for this session-aligned timeframe. -/
theorem C2_counterexample :
    parseTimeframeMs? "61m" = some 3660000
    ∧ (∃ out ∈ (aggregateCandles "ES" "61m" cexA (cexA + 3600000) cexSeries).getD [],
        out.timestamp = cexA
        ∧ out.isClosed = false
        ∧ (out.timestamp + 3660000 - msPerMin) ∈ cexSeries.map Candle.timestamp) := by
  decide

/-- First bar of a two-bar 1-minute series for the C2 witness. -/
def c2wBar0 : Candle :=
  { timestamp := 0, open_ := 10, high := 12, low := 9, close := 11, volume := 2,
    instrument := "ES", timeframe := "1m", source := "H", isClosed := true }

/-- Second bar of the two-bar series for the C2 witness. -/
def c2wBar1 : Candle :=
  { timestamp := 60000, open_ := 11, high := 13, low := 10, close := 12, volume := 3,
    instrument := "ES", timeframe := "1m", source := "H", isClosed := true }

/-- The "2m" aggregate of `[c2wBar0, c2wBar1]`. -/
def c2wOut : Candle :=
  { timestamp := 0, open_ := 10, high := 13, low := 9, close := 12, volume := 5,
    instrument := "ES", timeframe := "2m", source := "A", isClosed := true }

/-- Witness for C2 (amended) at a concrete UTC-aligned aggregation. -/
theorem C2_close_semantics_witness :
    c2wOut.isClosed = true ↔
      ((∃ y ∈ [c2wBar0, c2wBar1], c2wOut.timestamp + 120000 ≤ y.timestamp)
        ∨ (c2wOut.timestamp + 120000 - msPerMin)
            ∈ [c2wBar0, c2wBar1].map Candle.timestamp) := by
  have hL : (aggregateCandles "ES" "2m" 0 900000 [c2wBar0, c2wBar1]).getD []
      = [c2wOut] := by decide
  refine C2_close_semantics "ES" "2m" 0 900000 [c2wBar0, c2wBar1] c2wOut
    (by decide) (by decide) (by decide) (by decide) ?_
  rw [hL]
  exact List.mem_singleton.mpr rfl

theorem pairwise_tsLE_range_map (n : Nat) (f : Nat → Candle) (a : Int)
    (hts : ∀ k, k < n → (f k).timestamp = a + msPerMin * (k : Int)) :
    ((List.range n).map f).Pairwise tsLE := by
  rw [List.pairwise_map]
  rw [List.pairwise_iff_getElem]
  intro i j hi hj hij
  simp only [List.length_range] at hi hj
  simp only [List.getElem_range]
  show (f i).timestamp ≤ (f j).timestamp
  rw [hts i hi, hts j hj]
  have : (0 : Int) < msPerMin := by decide
  have hij' : (i : Int) ≤ (j : Int) := by exact_mod_cast le_of_lt hij
  nlinarith

theorem range_filter_interval (jB m n : Nat) (h : jB + m ≤ n) :
    (List.range n).filter (fun k => decide (jB ≤ k ∧ k < jB + m))
      = List.range' jB m := by
  have e2 : List.range' jB m ++ List.range' (jB + m) (n - jB - m)
      = List.range' jB ((n - jB - m) + m) := List.range'_append_1 jB m (n - jB - m)
  have e1 := List.range'_append_1 0 jB ((n - jB - m) + m)
  simp only [Nat.zero_add] at e1
  have hsplit : List.range n
      = List.range' 0 jB ++ List.range' jB m ++ List.range' (jB + m) (n - jB - m) := by
    rw [List.range_eq_range', List.append_assoc, e2, e1]
    congr 1
    omega
  rw [hsplit, List.filter_append, List.filter_append]
  have h1 : (List.range' 0 jB).filter (fun k => decide (jB ≤ k ∧ k < jB + m)) = [] := by
    rw [List.filter_eq_nil_iff]
    intro x hx
    obtain ⟨i, hi, rfl⟩ := List.mem_range'.1 hx
    simp only [decide_eq_true_iff]
    omega
  have h2 : (List.range' jB m).filter (fun k => decide (jB ≤ k ∧ k < jB + m))
      = List.range' jB m := by
    rw [List.filter_eq_self]
    intro x hx
    obtain ⟨i, hi, rfl⟩ := List.mem_range'.1 hx
    simp only [decide_eq_true_iff]
    omega
  have h3 : (List.range' (jB + m) (n - jB - m)).filter
      (fun k => decide (jB ≤ k ∧ k < jB + m)) = [] := by
    rw [List.filter_eq_nil_iff]
    intro x hx
    obtain ⟨i, hi, rfl⟩ := List.mem_range'.1 hx
    simp only [decide_eq_true_iff]
    omega
  rw [h1, h2, h3, List.nil_append, List.append_nil]

theorem foldl_aggUpdate_low_lb : ∀ (gs : List Candle) (st : AggCur),
    (gs.foldl aggUpdate st).cur.low ≤ st.cur.low
      ∧ ∀ x ∈ gs, (gs.foldl aggUpdate st).cur.low ≤ x.low
  | [], _ => ⟨le_refl _, fun x hx => absurd hx (List.not_mem_nil x)⟩
  | c :: gs, st => by
    obtain ⟨ih1, ih2⟩ := foldl_aggUpdate_low_lb gs (aggUpdate st c)
    have hm : (gs.foldl aggUpdate (aggUpdate st c)).cur.low ≤ min st.cur.low c.low := ih1
    refine ⟨le_trans hm (min_le_left _ _), fun x hx => ?_⟩
    rcases List.mem_cons.1 hx with rfl | hx
    · exact le_trans hm (min_le_right _ _)
    · exact ih2 x hx

/-- C1, amended: for a chronologically sorted, gapless 1-minute series
(modelled as the arithmetic progression of timestamps
`a, a+60000, …, a+(n-1)*60000`) and a UTC-aligned timeframe (interval
outside the session-aligned band `(1h, 1d]`, and not `"1m"`), every bar
`b` produced by `aggregateCandles` whose bucket start slot `B` and final
slot `B + I - 60000` both lie in the series satisfies the claimed
equations: `open` is the open of the 1-minute bar at `B`, `close` the
close of the bar at `B + I - 60000`, `high`/`low` the maximum/minimum
over the bucket `[B, B+I)`, and `volume` the sum over the bucket. -/
theorem C1_aggregation_correctness (inst tf : String) {I : Int} (start endv a : Int)
    (n : Nat) (f : Nat → Candle) (b : Candle)
    (hparse : parseTimeframeMs? tf = some I) (hI : 0 < I)
    (hsess : needsSessionAlignmentI I = false) (h1m : tf ≠ "1m")
    (hts : ∀ k, k < n → (f k).timestamp = a + msPerMin * (k : Int))
    (hb : b ∈ (aggregateCandles inst tf start endv ((List.range n).map f)).getD [])
    (hfirst : ∃ j, j < n ∧ a + msPerMin * (j : Int) = b.timestamp)
    (hlast : ∃ j, j < n ∧ a + msPerMin * (j : Int) = b.timestamp + I - msPerMin) :
    (∀ x ∈ (List.range n).map f, x.timestamp = b.timestamp → b.open_ = x.open_)
    ∧ (∀ y ∈ (List.range n).map f, y.timestamp = b.timestamp + I - msPerMin →
        b.close = y.close)
    ∧ ((((List.range n).map f).filter (fun z =>
          decide (b.timestamp ≤ z.timestamp)
            && decide (z.timestamp < b.timestamp + I))).map
          Candle.high).maximum = (b.high : WithBot Rat)
    ∧ ((((List.range n).map f).filter (fun z =>
          decide (b.timestamp ≤ z.timestamp)
            && decide (z.timestamp < b.timestamp + I))).map
          Candle.low).minimum = (b.low : WithTop Rat)
    ∧ ((((List.range n).map f).filter (fun z =>
          decide (b.timestamp ≤ z.timestamp)
            && decide (z.timestamp < b.timestamp + I))).map
          Candle.volume).sum = b.volume := by
  set S : List Candle := (List.range n).map f with hS
  have hpair : S.Pairwise tsLE := pairwise_tsLE_range_map n f a hts
  have hsorteq : S.insertionSort tsLE = S := List.Sorted.insertionSort_eq hpair
  obtain ⟨h0, hs, hfilt, hbeq⟩ := aggregateCandles_utc_char inst tf start endv S b
    hparse hI hsess h1m hb
  rw [hsorteq] at hfilt
  have hh0 : h0 ∈ S.filter (fun x => decide (utcAlign I x.timestamp = b.timestamp)) := by
    rw [hfilt]
    exact List.mem_cons_self _ _
  have hbts : utcAlign I h0.timestamp = b.timestamp :=
    decide_eq_true_iff.1 (List.mem_filter.1 hh0).2
  have hdvd : I ∣ b.timestamp := hbts ▸ utcAlign_dvd I h0.timestamp
  have hIm : msPerMin ≤ I := Int.le_of_dvd hI (parseTimeframeMs?_dvd hparse)
  have hm : msPerMin = 60000 := rfl
  obtain ⟨jB, hjB, hjBts⟩ := hfirst
  obtain ⟨jL, hjL, hjLts⟩ := hlast
  rw [hm] at hjBts hjLts hIm
  have hjBL : jB ≤ jL := by omega
  have hIeq : I = 60000 * ((jL : Int) - (jB : Int) + 1) := by omega
  have hpred : ∀ x ∈ S,
      (decide (b.timestamp ≤ x.timestamp) && decide (x.timestamp < b.timestamp + I))
        = decide (utcAlign I x.timestamp = b.timestamp) := by
    intro x _
    rw [← Bool.decide_and]
    exact decide_eq_decide.mpr (utcAlign_eq_iff hI hdvd x.timestamp).symm
  have hfc : S.filter (fun z => decide (b.timestamp ≤ z.timestamp)
      && decide (z.timestamp < b.timestamp + I)) = h0 :: hs :=
    (List.filter_congr hpred).trans hfilt
  have hkpred : ∀ k ∈ List.range n,
      ((fun z => decide (b.timestamp ≤ z.timestamp)
          && decide (z.timestamp < b.timestamp + I)) ∘ f) k
        = decide (jB ≤ k ∧ k < jB + (jL + 1 - jB)) := by
    intro k hk
    have hkn : k < n := List.mem_range.1 hk
    have hfk := hts k hkn
    rw [hm] at hfk
    show (decide (b.timestamp ≤ (f k).timestamp)
        && decide ((f k).timestamp < b.timestamp + I)) = _
    rw [← Bool.decide_and]
    refine decide_eq_decide.mpr ?_
    rw [hfk]
    omega
  have hrange : S.filter (fun z => decide (b.timestamp ≤ z.timestamp)
      && decide (z.timestamp < b.timestamp + I))
        = (List.range' jB (jL + 1 - jB)).map f := by
    rw [hS, List.filter_map, List.filter_congr hkpred,
      range_filter_interval jB (jL + 1 - jB) n (by omega)]
  have hlist : h0 :: hs = (List.range' jB (jL + 1 - jB)).map f := hfc.symm.trans hrange
  obtain ⟨mm, hmm⟩ : ∃ mm, jL + 1 - jB = mm + 1 := ⟨jL - jB, by omega⟩
  rw [hmm, List.range'_succ, List.map_cons] at hlist
  injection hlist with hh0eq hhseq
  have hopen : b.open_ = h0.open_ := by
    conv_lhs => rw [hbeq]
    show (hs.foldl aggUpdate (aggInit inst tf b.timestamp h0)).cur.open_ = h0.open_
    rw [foldl_aggUpdate_open]
    rfl
  have hclose0 : b.close = ((hs.map Candle.close).getLast?).getD h0.close := by
    conv_lhs => rw [hbeq]
    show (hs.foldl aggUpdate (aggInit inst tf b.timestamp h0)).cur.close = _
    rw [foldl_aggUpdate_close]
    rfl
  have hvol : b.volume = h0.volume + (hs.map Candle.volume).sum := by
    conv_lhs => rw [hbeq]
    show (hs.foldl aggUpdate (aggInit inst tf b.timestamp h0)).cur.volume = _
    rw [foldl_aggUpdate_volume]
    rfl
  have hbhigh : b.high = (hs.foldl aggUpdate (aggInit inst tf b.timestamp h0)).cur.high := by
    conv_lhs => rw [hbeq]
    rfl
  have hblow : b.low = (hs.foldl aggUpdate (aggInit inst tf b.timestamp h0)).cur.low := by
    conv_lhs => rw [hbeq]
    rfl
  refine ⟨?_, ?_, ?_, ?_, ?_⟩
  · intro x hx hxts
    obtain ⟨k, hk, rfl⟩ := List.mem_map.1 hx
    have hkn : k < n := List.mem_range.1 hk
    have hfk := hts k hkn
    rw [hm] at hfk
    have hkjB : k = jB := by omega
    rw [hkjB, hopen, hh0eq]
  · intro y hy hyts
    obtain ⟨k, hk, rfl⟩ := List.mem_map.1 hy
    have hkn : k < n := List.mem_range.1 hk
    have hfk := hts k hkn
    rw [hm] at hfk
    have hkjL : k = jL := by omega
    rw [hkjL]
    cases mm with
    | zero =>
      have hsnil : hs = [] := by
        rw [hhseq]
        rfl
      have hjeq : jB = jL := by omega
      rw [hclose0, hsnil, hh0eq, hjeq]
      rfl
    | succ mmm =>
      rw [List.range'_concat] at hhseq
      rw [hclose0, hhseq, List.map_append, List.map_append]
      show (_ ++ [(f (jB + 1 + 1 * mmm)).close]).getLast?.getD h0.close = _
      rw [List.getLast?_concat]
      have hje : jB + 1 + 1 * mmm = jL := by omega
      rw [hje]
      rfl
  · rw [hfc]
    refine List.maximum_eq_coe_iff.2 ⟨?_, ?_⟩
    · rcases foldl_aggUpdate_high_mem hs (aggInit inst tf b.timestamp h0) with h | h
      · rw [List.map_cons]
        exact List.mem_cons.2 (Or.inl (by rw [hbhigh, h]; rfl))
      · rw [List.map_cons]
        exact List.mem_cons_of_mem _ (by rw [hbhigh]; exact h)
    · intro q hq
      rw [List.map_cons] at hq
      obtain ⟨ub1, ub2⟩ := foldl_aggUpdate_high_ub hs (aggInit inst tf b.timestamp h0)
      rcases List.mem_cons.1 hq with rfl | hq
      · rw [hbhigh]
        exact ub1
      · obtain ⟨x, hx, rfl⟩ := List.mem_map.1 hq
        rw [hbhigh]
        exact ub2 x hx
  · rw [hfc]
    refine List.minimum_eq_coe_iff.2 ⟨?_, ?_⟩
    · rcases foldl_aggUpdate_low_mem hs (aggInit inst tf b.timestamp h0) with h | h
      · rw [List.map_cons]
        exact List.mem_cons.2 (Or.inl (by rw [hblow, h]; rfl))
      · rw [List.map_cons]
        exact List.mem_cons_of_mem _ (by rw [hblow]; exact h)
    · intro q hq
      rw [List.map_cons] at hq
      obtain ⟨lb1, lb2⟩ := foldl_aggUpdate_low_lb hs (aggInit inst tf b.timestamp h0)
      rcases List.mem_cons.1 hq with rfl | hq
      · rw [hblow]
        exact lb1
      · obtain ⟨x, hx, rfl⟩ := List.mem_map.1 hq
        rw [hblow]
        exact lb2 x hx
  · rw [hfc, List.map_cons, List.sum_cons, hvol]


/-- Bar `k` of a two-bar gapless 1-minute series for the C1 witness. -/
def c1wf (k : Nat) : Candle :=
  { timestamp := msPerMin * (k : Int), open_ := (k : Rat), high := (k : Rat),
    low := (k : Rat), close := (k : Rat), volume := 1, instrument := "ES",
    timeframe := "1m", source := "H", isClosed := true }

/-- The "2m" aggregate of the C1 witness series. -/
def c1wOut : Candle :=
  { timestamp := 0, open_ := 0, high := 1, low := 0, close := 1, volume := 2,
    instrument := "ES", timeframe := "2m", source := "A", isClosed := true }

/-- Witness for C1 (amended) at a concrete two-bar series and the `"2m"`
timeframe. -/
theorem C1_aggregation_correctness_witness :
    (∀ x ∈ (List.range 2).map c1wf, x.timestamp = c1wOut.timestamp →
        c1wOut.open_ = x.open_)
    ∧ (∀ y ∈ (List.range 2).map c1wf,
        y.timestamp = c1wOut.timestamp + 120000 - msPerMin → c1wOut.close = y.close)
    ∧ ((((List.range 2).map c1wf).filter (fun z =>
          decide (c1wOut.timestamp ≤ z.timestamp)
            && decide (z.timestamp < c1wOut.timestamp + 120000))).map
          Candle.high).maximum = (c1wOut.high : WithBot Rat)
    ∧ ((((List.range 2).map c1wf).filter (fun z =>
          decide (c1wOut.timestamp ≤ z.timestamp)
            && decide (z.timestamp < c1wOut.timestamp + 120000))).map
          Candle.low).minimum = (c1wOut.low : WithTop Rat)
    ∧ ((((List.range 2).map c1wf).filter (fun z =>
          decide (c1wOut.timestamp ≤ z.timestamp)
            && decide (z.timestamp < c1wOut.timestamp + 120000))).map
          Candle.volume).sum = c1wOut.volume := by
  have hL : (aggregateCandles "ES" "2m" 0 900000 ((List.range 2).map c1wf)).getD []
      = [c1wOut] := by decide
  exact @C1_aggregation_correctness "ES" "2m" 120000 0 900000 0 2 c1wf c1wOut
    (by decide) (by decide) (by decide) (by decide) (by decide)
    (by rw [hL]; exact List.mem_singleton.mpr rfl)
    ⟨0, by decide⟩ ⟨1, by decide⟩


/-! ### Session alignment vs the spec (C5) -/

set_option maxHeartbeats 4000000 in
theorem daysFromCivil_civilFromDays {z y m d : Int} (hlo : 11017 ≤ z) (hhi : z < 47541)
    (h : civilFromDays z = (y, m, d)) : daysFromCivil y m d = z := by
  have hera : (z + 719468).fdiv 146097 = 5 := by
    rw [Int.fdiv_eq_ediv _ (by norm_num)]
    omega
  simp only [civilFromDays, hera] at h
  have h1 : (z + 719468 - 5 * 146097) / 36524 = 0 := by omega
  have h2 : (z + 719468 - 5 * 146097) / 146096 = 0 := by omega
  simp only [h1, h2, add_zero, sub_zero] at h
  have h3 : (z + 719468 - 5 * 146097 - (z + 719468 - 5 * 146097) / 1460) / 365 / 100 = 0 := by
    omega
  simp only [h3, sub_zero] at h
  rw [Prod.mk.injEq, Prod.mk.injEq] at h
  obtain ⟨hy, hm, hd⟩ := h
  simp only [daysFromCivil]
  subst hy
  subst hm
  subst hd
  rw [add_sub_cancel_right, Int.fdiv_eq_ediv _ (by norm_num : (0:Int) ≤ 400)]
  have h400 : ((z + 719468 - 5 * 146097 - (z + 719468 - 5 * 146097) / 1460) / 365 + 5 * 400) / 400
      = 5 := by omega
  rw [h400, add_sub_cancel_right]
  omega

theorem etOffset_noon (D : Int) :
    etOffsetMs (D * msPerDay + 12 * msPerHour)
      = if dstFlagDay D then -4 * msPerHour else -5 * msPerHour := by
  have hfd : (D * msPerDay + 12 * msPerHour).fdiv msPerDay = D := by
    simp only [msPerDay, msPerHour]
    rw [Int.fdiv_eq_ediv _ (by norm_num)]
    omega
  simp only [etOffsetMs, hfd, dstFlagDay, Bool.and_eq_true, decide_eq_true_eq]
  refine if_congr ?_ rfl rfl
  simp only [dstStartMs, dstEndMs, msPerDay, msPerHour]
  omega

theorem etOffsetMs_cases (t : Int) :
    etOffsetMs t = -4 * msPerHour ∨ etOffsetMs t = -5 * msPerHour := by
  rw [etOffsetMs]
  split_ifs with h
  · exact Or.inl rfl
  · exact Or.inr rfl

theorem etCivilDays_cases (t : Int) :
    etCivilDays t = t.fdiv msPerDay ∨ etCivilDays t = t.fdiv msPerDay - 1 := by
  rw [etCivilDays]
  rcases etOffsetMs_cases t with h | h <;>
    rw [h] <;>
    simp only [msPerHour, msPerDay] <;>
    rw [Int.fdiv_eq_ediv _ (by norm_num), Int.fdiv_eq_ediv _ (by norm_num)] <;>
    omega

theorem getSessionStartUTCBody_eq (t : Int) (h1 : 11017 ≤ etCivilDays t)
    (h2 : etCivilDays t < 47541) :
    getSessionStartUTCBody t = et1800Instant (etCivilDays t) := by
  rw [getSessionStartUTCBody]
  rcases hciv : civilFromDays (etCivilDays t) with ⟨y, m, d⟩
  dsimp only
  have hrt : daysFromCivil y m d = etCivilDays t := daysFromCivil_civilFromDays h1 h2 hciv
  rw [hrt, etOffset_noon (etCivilDays t), et1800Instant]
  split_ifs with h
  · ring
  · ring

theorem align_base_shift {I : Int} (hI : 0 < I) (hdvd : I ∣ msPerDay) (S c t : Int) :
    (S + c * msPerDay) + (t - (S + c * msPerDay)).fdiv I * I = S + (t - S).fdiv I * I := by
  obtain ⟨w, hw⟩ := hdvd
  rw [hw]
  have he : t - (S + c * (I * w)) = (t - S) + (-(c * w)) * I := by ring
  rw [he, Int.fdiv_eq_ediv _ hI.le, Int.fdiv_eq_ediv _ hI.le,
    Int.add_mul_ediv_right _ _ (ne_of_gt hI)]
  ring

/-- C5, amended: in the DST-rule era (2000-03-02 … 2100-02-27), for a
positive interval dividing 24 hours, when the memoization cache has
either no entry for the timestamp's UTC day or an entry computed by the
cache-miss body for some timestamp of the same UTC day, and US DST
neither starts nor ends on the timestamp's Eastern civil day or its two
neighbours, the session-based bucket start computed by
`getSessionBasedAlignment` equals `S + floor((t − S)/I)·I` with `S` the
most recent 18:00 America/New_York instant at or before `t`. -/
theorem C5_session_alignment (cache : List (Int × Int)) (t t' I : Int)
    (hI : 0 < I) (hdvd : I ∣ msPerDay)
    (hlo : 11018 * msPerDay ≤ t) (hhi : t < 47540 * msPerDay)
    (hkey : t'.fdiv msPerDay = t.fdiv msPerDay)
    (hcache : alookup cache (t.fdiv msPerDay) = none
      ∨ alookup cache (t.fdiv msPerDay) = some (getSessionStartUTCBody t'))
    (hprev : dstFlagDay (etCivilDays t - 1) = dstFlagDay (etCivilDays t))
    (hnext : dstFlagDay (etCivilDays t + 1) = dstFlagDay (etCivilDays t)) :
    (getSessionBasedAlignment cache t I).1 = specSessionBucket t I := by
  have hKb : 11018 ≤ t.fdiv msPerDay ∧ t.fdiv msPerDay ≤ 47539 := by
    simp only [msPerDay] at hlo hhi ⊢
    rw [Int.fdiv_eq_ediv _ (by norm_num)]
    omega
  have hDrange : 11017 ≤ etCivilDays t ∧ etCivilDays t < 47541 := by
    rcases etCivilDays_cases t with h | h <;> rw [h] <;> omega
  have hD'range : 11017 ≤ etCivilDays t' ∧ etCivilDays t' < 47541 := by
    rcases etCivilDays_cases t' with h | h <;> rw [h, hkey] <;> omega
  have he1800 : ∀ d : Int, et1800Instant d = d * msPerDay + 18 * msPerHour +
      (if dstFlagDay d then 4 * msPerHour else 5 * msPerHour) := fun d => rfl
  have hshift_prev : et1800Instant (etCivilDays t - 1)
      = et1800Instant (etCivilDays t) - msPerDay := by
    rw [he1800, he1800, hprev]
    ring
  have hshift_next : et1800Instant (etCivilDays t + 1)
      = et1800Instant (etCivilDays t) + msPerDay := by
    rw [he1800, he1800, hnext]
    ring
  obtain ⟨a, c2, hgs⟩ : ∃ a c2, getSessionStartUTC cache t = (a, c2) := ⟨_, _, rfl⟩
  have hval : (getSessionBasedAlignment cache t I).1
      = (if t < a then a - msPerDay else a)
        + (t - (if t < a then a - msPerDay else a)).fdiv I * I := by
    rw [getSessionBasedAlignment, hgs]
  have ha : a = et1800Instant (etCivilDays t) ∨ a = et1800Instant (etCivilDays t') := by
    rcases hcache with hcc | hcc
    · left
      have h2 : getSessionStartUTC cache t
          = (getSessionStartUTCBody t,
              aset cache (t.fdiv msPerDay) (getSessionStartUTCBody t)) := by
        simp only [getSessionStartUTC]
        rw [hcc]
      rw [h2] at hgs
      injection hgs with h3 h4
      rw [← h3]
      exact getSessionStartUTCBody_eq t hDrange.1 hDrange.2
    · right
      have h2 : getSessionStartUTC cache t = (getSessionStartUTCBody t', cache) := by
        simp only [getSessionStartUTC]
        rw [hcc]
      rw [h2] at hgs
      injection hgs with h3 h4
      rw [← h3]
      exact getSessionStartUTCBody_eq t' hD'range.1 hD'range.2
  have hD'cases : etCivilDays t' = etCivilDays t ∨ etCivilDays t' = etCivilDays t - 1
      ∨ etCivilDays t' = etCivilDays t + 1 := by
    rcases etCivilDays_cases t with h1 | h1 <;>
      rcases etCivilDays_cases t' with h2 | h2 <;>
      rw [hkey] at h2 <;> omega
  have ha' : ∃ ca : Int, a = et1800Instant (etCivilDays t) + ca * msPerDay := by
    rcases ha with h | h
    · exact ⟨0, by rw [h]; ring⟩
    · rcases hD'cases with hd | hd | hd
      · exact ⟨0, by rw [h, hd]; ring⟩
      · exact ⟨-1, by rw [h, hd, hshift_prev]; ring⟩
      · exact ⟨1, by rw [h, hd, hshift_next]; ring⟩
  have hbase : ∃ cb : Int, (if t < a then a - msPerDay else a)
      = et1800Instant (etCivilDays t) + cb * msPerDay := by
    obtain ⟨ca, hca⟩ := ha'
    by_cases hlt : t < a
    · exact ⟨ca - 1, by rw [if_pos hlt, hca]; ring⟩
    · exact ⟨ca, by rw [if_neg hlt, hca]⟩
  have hS : ∃ cS : Int, specMostRecentSessionStart t
      = et1800Instant (etCivilDays t) + cS * msPerDay := by
    rw [specMostRecentSessionStart]
    split_ifs with h
    · exact ⟨0, by ring⟩
    · exact ⟨-1, by rw [hshift_prev]; ring⟩
  rw [hval, specSessionBucket]
  obtain ⟨cb, hcb⟩ := hbase
  obtain ⟨cS, hcS⟩ := hS
  rw [hcb, hcS, align_base_shift hI hdvd, align_base_shift hI hdvd]

/-- Witness for C5 (amended) at a concrete input: 2024-01-10 12:00 UTC,
interval 4 hours, empty cache. -/
theorem C5_session_alignment_witness :
    (getSessionBasedAlignment [] (19732 * msPerDay + 12 * msPerHour) (4 * msPerHour)).1
      = specSessionBucket (19732 * msPerDay + 12 * msPerHour) (4 * msPerHour) :=
  C5_session_alignment [] (19732 * msPerDay + 12 * msPerHour)
    (19732 * msPerDay + 12 * msPerHour) (4 * msPerHour)
    (by decide) ⟨6, by decide⟩ (by decide) (by decide) rfl (Or.inl rfl)
    (by decide) (by decide)

/-- C5, counterexample: (1) with a cold cache at 2024-03-10 12:00 UTC
(the day US DST starts) and interval 4 hours, the computed bucket start
differs from `S + floor((t − S)/I)·I` (the −24h fallback lands at
Mar 9 22:00 UTC instead of the true previous 18:00-ET instant
Mar 9 23:00 UTC); (2) the per-day memoization changes the result: a
cache warmed at 2024-03-10 02:00 UTC (Eastern date still Mar 9) gives a
different bucket start at 2024-03-10 23:30 UTC than a cold cache; (3)
likewise on a DST-free day with the in-band interval 5 hours (which
does not divide 24h): a cache warmed at 2024-01-10 02:00 UTC gives a
different bucket start at 2024-01-10 23:30 UTC than a cold cache. -/
theorem C5_counterexample :
    (getSessionBasedAlignment [] (19792 * msPerDay + 12 * msPerHour) (4 * msPerHour)).1
        ≠ specSessionBucket (19792 * msPerDay + 12 * msPerHour) (4 * msPerHour)
    ∧ (getSessionBasedAlignment
          (getSessionBasedAlignment [] (19792 * msPerDay + 2 * msPerHour) (4 * msPerHour)).2
          (19792 * msPerDay + 84600000) (4 * msPerHour)).1
        ≠ (getSessionBasedAlignment [] (19792 * msPerDay + 84600000) (4 * msPerHour)).1
    ∧ (getSessionBasedAlignment
          (getSessionBasedAlignment [] (19732 * msPerDay + 2 * msPerHour) (5 * msPerHour)).2
          (19732 * msPerDay + 84600000) (5 * msPerHour)).1
        ≠ (getSessionBasedAlignment [] (19732 * msPerDay + 84600000) (5 * msPerHour)).1 := by
  decide


end Chronicle
